import Mathlib

/-!
# Viewport projection, image metadata and node multi-function lookup

A shallow embedding of parts of
`source/blender/editors/space_view3d/view3d_project.c`,
`source/blender/imbuf/intern/metadata.c` and
`source/blender/nodes/NOD_multi_function.hh`.

Conventions of the embedding:

* the clipping projection and `ED_view3d_calc_zfac`, whose results turn on thresholds, are
  embedded in binary32 arithmetic (`F32`): every operation rounds to nearest, ties to even,
  and there are NaN and the two infinities; their vectors and matrices are `V2f`, `V3f`,
  `V4f` and `M4f`;
* in the direction, ray and location functions, whose claims are algebraic, the C type
  `float` is read as an exact rational (`float`): arithmetic does not round and there is no
  NaN and no infinity (division by zero yields `0`, as in Mathlib);
* `float[n]` arrays are records `V2`, `V3`, `V4`; a `float[4][4]` matrix is the
  record `M4` of its four rows `mat[0] .. mat[3]` (each one a column of the
  mathematical matrix, as in the C sources);
* output parameters are passed in and returned (explicit state passing);
* machine integers are `Int` with an explicit wrap to the width of the C type.
-/

namespace Blender

/-! ## Scalars, vectors, matrices -/

/-- The C type `float`, read as an exact rational. -/
abbrev float := ℚ

/-- A `float[2]`. -/
structure V2 where
  x : float
  y : float
  deriving DecidableEq

/-- A `float[3]`. -/
structure V3 where
  x : float
  y : float
  z : float
  deriving DecidableEq

/-- A `float[4]`. -/
structure V4 where
  x : float
  y : float
  z : float
  w : float
  deriving DecidableEq

/-- A `float[4][4]`: `m0 .. m3` are `mat[0] .. mat[3]`. -/
structure M4 where
  m0 : V4
  m1 : V4
  m2 : V4
  m3 : V4
  deriving DecidableEq

/-- The first three entries of a `float[4]`, as C reads them through a `float[3]` parameter. -/
def V4.xyz (v : V4) : V3 := ⟨v.x, v.y, v.z⟩

/-- The identity matrix. -/
def M4.unit : M4 := ⟨⟨1, 0, 0, 0⟩, ⟨0, 1, 0, 0⟩, ⟨0, 0, 1, 0⟩, ⟨0, 0, 0, 1⟩⟩

/-- The libm function `fabsf`. -/
def fabsf (f : float) : float := |f|

/-- Reduction of an integer to the two's complement range of `bits` bits. -/
def wrap_signed (bits : Nat) (n : Int) : Int :=
  (n + 2 ^ (bits - 1)) % 2 ^ bits - 2 ^ (bits - 1)

/-- Conversion of a finite value to an integer as C does it: the fraction is discarded. -/
def float_trunc (f : ℚ) : Int := if 0 ≤ f then ⌊f⌋ else ⌈f⌉

/-- Modelled from the spec: `mul_m4_v4` belongs to the math library, which is not part of
the listing; it is the product `mat * v` of the claims (`v = perspmat * (co, 1)`), with
`mat[i]` the i-th column. -/
def mul_m4_v4 (mat : M4) (v : V4) : V4 :=
  ⟨v.x * mat.m0.x + v.y * mat.m1.x + v.z * mat.m2.x + mat.m3.x * v.w,
   v.x * mat.m0.y + v.y * mat.m1.y + v.z * mat.m2.y + mat.m3.y * v.w,
   v.x * mat.m0.z + v.y * mat.m1.z + v.z * mat.m2.z + mat.m3.z * v.w,
   v.x * mat.m0.w + v.y * mat.m1.w + v.z * mat.m2.w + mat.m3.w * v.w⟩

/-! ## Binary32 arithmetic -/

/-- A value of the C type `float` in the format binary32: not a number, an infinity with its
sign, or a finite value. A finite value is kept as a rational; each operation below rounds
its result to binary32 (no excess precision, no fused multiply-add). The sign of a zero is
not kept: it shows only in a division by zero, which the embedded functions do not do. -/
inductive F32 where
  | nan
  | inf (negative : Bool)
  | fin (q : ℚ)
  deriving DecidableEq

namespace F32

/-- The integer nearest to `x`, and the even one of the two when `x` is half way. -/
def round_half_even (x : ℚ) : Int :=
  let f := ⌊x⌋
  let d := x - f
  if d < 1 / 2 then f else if d > 1 / 2 then f + 1 else if f % 2 = 0 then f else f + 1

/-- Rounding of a real result to binary32, to nearest and ties to even: 24 bits of
significand, exponents from `-126`, subnormal values below, and an infinity from `2^128`. -/
def round (q : ℚ) : F32 :=
  if q = 0 then
    fin 0
  else
    let a := |q|
    let e := max (Int.log 2 a) (-126)
    let ulp : ℚ := 2 ^ (e - 23)
    let r : ℚ := (round_half_even (a / ulp) : ℚ) * ulp
    if r ≥ 2 ^ 128 then inf (decide (q < 0)) else fin (if q < 0 then -r else r)

/-- The conversion `(float)n` of an integer. -/
def of_int (n : Int) : F32 := round n

/-- The operation `-a`. -/
def neg : F32 → F32
  | nan => nan
  | inf s => inf (!s)
  | fin q => fin (-q)

/-- The libm function `fabsf`. -/
def fabsf : F32 → F32
  | nan => nan
  | inf _ => inf false
  | fin q => fin |q|

/-- The libm function `floorf`; the floor of a binary32 value is a binary32 value. -/
def floorf : F32 → F32
  | nan => nan
  | inf s => inf s
  | fin q => fin ((⌊q⌋ : Int) : ℚ)

/-- The operation `a + b`. -/
def add : F32 → F32 → F32
  | nan, _ => nan
  | _, nan => nan
  | inf s, inf t => if s = t then inf s else nan
  | inf s, fin _ => inf s
  | fin _, inf t => inf t
  | fin a, fin b => round (a + b)

/-- The operation `a * b`. -/
def mul : F32 → F32 → F32
  | nan, _ => nan
  | _, nan => nan
  | inf s, inf t => inf (s != t)
  | inf s, fin b => if b = 0 then nan else inf (s != decide (b < 0))
  | fin a, inf t => if a = 0 then nan else inf (decide (a < 0) != t)
  | fin a, fin b => round (a * b)

/-- The operation `a / b`; a zero divisor counts as positive. -/
def div : F32 → F32 → F32
  | nan, _ => nan
  | _, nan => nan
  | inf _, inf _ => nan
  | inf s, fin b => inf (s != decide (b < 0))
  | fin _, inf _ => fin 0
  | fin a, fin b =>
    if b = 0 then (if a = 0 then nan else inf (decide (a < 0))) else round (a / b)

/-- The comparison `a < b`, false when either is not a number. -/
def lt : F32 → F32 → Bool
  | nan, _ => false
  | _, nan => false
  | inf s, inf t => s && !t
  | inf s, fin _ => s
  | fin _, inf t => !t
  | fin a, fin b => decide (a < b)

/-- The comparison `a <= b`, false when either is not a number. -/
def le : F32 → F32 → Bool
  | nan, _ => false
  | _, nan => false
  | inf s, inf t => s || !t
  | inf s, fin _ => s
  | fin _, inf t => !t
  | fin a, fin b => decide (a ≤ b)

/-- The comparison `a > b`. -/
def gt (a b : F32) : Bool := lt b a

/-- The comparison `a >= b`. -/
def ge (a b : F32) : Bool := le b a

/-- The comparison `a != b`, true when either is not a number. -/
def ne : F32 → F32 → Bool
  | nan, _ => true
  | _, nan => true
  | inf s, inf t => s != t
  | inf _, fin _ => true
  | fin _, inf _ => true
  | fin a, fin b => decide (a ≠ b)

instance : Neg F32 := ⟨neg⟩

instance : Add F32 := ⟨add⟩

instance : Mul F32 := ⟨mul⟩

instance : Div F32 := ⟨div⟩

end F32

/-- The cast `(short)f` of a finite value; for the others, where C leaves the result
undefined, it is `0`. -/
def short_of_float : F32 → Int
  | F32.fin q => wrap_signed 16 (float_trunc q)
  | _ => 0

/-- The cast `(int)f` of a finite value; for the others, where C leaves the result
undefined, it is `0`. -/
def int_of_float : F32 → Int
  | F32.fin q => wrap_signed 32 (float_trunc q)
  | _ => 0

/-- A `float[2]` in binary32. -/
structure V2f where
  x : F32
  y : F32
  deriving DecidableEq

/-- A `float[3]` in binary32. -/
structure V3f where
  x : F32
  y : F32
  z : F32
  deriving DecidableEq

/-- A `float[4]` in binary32. -/
structure V4f where
  x : F32
  y : F32
  z : F32
  w : F32
  deriving DecidableEq

/-- A `float[4][4]` in binary32: `m0 .. m3` are `mat[0] .. mat[3]`. -/
structure M4f where
  m0 : V4f
  m1 : V4f
  m2 : V4f
  m3 : V4f
  deriving DecidableEq

/-- The identity matrix in binary32. -/
def M4f.unit : M4f :=
  ⟨⟨F32.fin 1, F32.fin 0, F32.fin 0, F32.fin 0⟩, ⟨F32.fin 0, F32.fin 1, F32.fin 0, F32.fin 0⟩,
   ⟨F32.fin 0, F32.fin 0, F32.fin 1, F32.fin 0⟩, ⟨F32.fin 0, F32.fin 0, F32.fin 0, F32.fin 1⟩⟩

namespace Binary32

/-- Modelled from the spec: `mul_m4_v4` of the math library (not part of the listing) in
binary32: the product `mat * v` of the claims (`v = perspmat * (co, 1)`), with `mat[i]` the
i-th column, each operation rounded. -/
def mul_m4_v4 (mat : M4f) (v : V4f) : V4f :=
  ⟨v.x * mat.m0.x + v.y * mat.m1.x + v.z * mat.m2.x + mat.m3.x * v.w,
   v.x * mat.m0.y + v.y * mat.m1.y + v.z * mat.m2.y + mat.m3.y * v.w,
   v.x * mat.m0.z + v.y * mat.m1.z + v.z * mat.m2.z + mat.m3.z * v.w,
   v.x * mat.m0.w + v.y * mat.m1.w + v.z * mat.m2.w + mat.m3.w * v.w⟩

/-- Modelled from the spec: `mul_project_m4_v3_zfac` of the math library (not part of the
listing) in binary32, the raw projection factor of the claims: the fourth entry of
`mat * (co, 1)`, each operation rounded. -/
def mul_project_m4_v3_zfac (mat : M4f) (co : V3f) : F32 :=
  (mat.m0.w * co.x) + (mat.m1.w * co.y) + (mat.m2.w * co.z) + mat.m3.w

end Binary32

/-! ## View data -/

/-- The fields of `RegionView3D` that the projection functions read; `persmat` and
`persmatob`, which only functions embedded in binary32 read, are in binary32. -/
structure RegionView3D where
  rflag : Nat
  is_persp : Bool
  persp : Nat
  persmat : M4f
  persmatob : M4f
  persinv : M4
  viewmat : M4
  viewinv : M4
  winmat : M4
  camzoom : float
  camdx : float
  camdy : float
  clip : List V4
  deriving DecidableEq

/-- The fields of `Camera` that the projection functions read. -/
structure Camera where
  sensor_fit : Int
  shiftx : float
  shifty : float
  deriving DecidableEq

/-- An `Object` that is a camera: `data` is the camera it points to. -/
structure Object where
  data : Camera
  deriving DecidableEq

/-- The fields of `View3D` that the projection functions read; `camera` is `none` for a NULL
pointer. -/
structure View3D where
  clip_start : float
  clip_end : float
  camera : Option Object
  deriving DecidableEq

/-- A `Depsgraph`, which the projection functions only pass on. -/
structure Depsgraph where
  id : Nat
  deriving DecidableEq

/-- The fields of `ARegion` that the projection functions read. -/
structure ARegion where
  winx : Int
  winy : Int
  regiondata : RegionView3D
  deriving DecidableEq

/-- The values of `eV3DProjStatus`. -/
inductive eV3DProjStatus where
  | V3D_PROJ_RET_OK
  | V3D_PROJ_RET_CLIP_NEAR
  | V3D_PROJ_RET_CLIP_FAR
  | V3D_PROJ_RET_CLIP_ZERO
  | V3D_PROJ_RET_CLIP_BB
  | V3D_PROJ_RET_CLIP_WIN
  | V3D_PROJ_RET_OVERFLOW
  deriving DecidableEq

open eV3DProjStatus

/-- What `view3d_project.c` takes from outside the listing: the bits of `eV3DProjTest`, the
bit `RV3D_CLIPPING` of `rflag`, the value `RV3D_CAMOB` of `persp`, the value
`CAMERA_SENSOR_FIT_HOR`, and the functions
* `ED_view3d_clipping_test` (true when the point is clipped away),
* `ED_view3d_clip_range_get`, which gives the pair it writes to `r_clipsta` and `r_clipend`,
* `clip_segment_v3_plane_n` for `(p1, p2, plane_array, plane_tot)`, which gives its return
  value with the contents of `r_p1` and `r_p2` after the call, when these are `p1` and `p2`,
* `BKE_camera_sensor_fit` and `BKE_screen_view3d_zoom_to_fac`. -/
structure ViewEnv where
  V3D_PROJ_TEST_CLIP_BB : Nat
  V3D_PROJ_TEST_CLIP_WIN : Nat
  V3D_PROJ_TEST_CLIP_NEAR : Nat
  V3D_PROJ_TEST_CLIP_FAR : Nat
  V3D_PROJ_TEST_CLIP_ZERO : Nat
  RV3D_CLIPPING : Nat
  RV3D_CAMOB : Nat
  CAMERA_SENSOR_FIT_HOR : Int
  ED_view3d_clipping_test : RegionView3D → V3f → Bool → Bool
  ED_view3d_clip_range_get : Depsgraph → View3D → RegionView3D → Bool → float × float
  clip_segment_v3_plane_n : V3 → V3 → List V4 → Int → Bool × V3 × V3
  BKE_camera_sensor_fit : Int → float → float → Int
  BKE_screen_view3d_zoom_to_fac : float → float

/-- The C test `a & b`, true when the result is not zero. -/
def test_bit (a b : Nat) : Bool := (a &&& b) != 0

/-- The constant `(float)BL_ZERO_CLIP`: the macro is `0.001`, and the binary32 value nearest
to it is `8589935 / 2^33`. -/
def BL_ZERO_CLIP : F32 := F32.fin (8589935 / 8589934592)

/-! ## Clipping projection -/

/-- The function `ed_view3d_project__internal`, in binary32; `r_co` is written only on
success. The debug assertion on `flag` (no bits outside `V3D_PROJ_TEST_ALL`) has no effect on
the result and is left out. -/
def ed_view3d_project__internal (E : ViewEnv) (region : ARegion) (perspmat : M4f)
    (is_local : Bool) (co : V3f) (r_co : V2f) (flag : Nat) : eV3DProjStatus × V2f :=
  let rv3d := region.regiondata
  if test_bit flag E.V3D_PROJ_TEST_CLIP_BB && test_bit rv3d.rflag E.RV3D_CLIPPING
      && E.ED_view3d_clipping_test rv3d co is_local then
    (V3D_PROJ_RET_CLIP_BB, r_co)
  else
    let vec4 := Binary32.mul_m4_v4 perspmat ⟨co.x, co.y, co.z, F32.fin 1⟩
    let w := F32.fabsf vec4.w
    if test_bit flag E.V3D_PROJ_TEST_CLIP_ZERO && F32.le w BL_ZERO_CLIP then
      (V3D_PROJ_RET_CLIP_ZERO, r_co)
    else if test_bit flag E.V3D_PROJ_TEST_CLIP_NEAR && F32.le vec4.z (-w) then
      (V3D_PROJ_RET_CLIP_NEAR, r_co)
    else if test_bit flag E.V3D_PROJ_TEST_CLIP_FAR && F32.ge vec4.z w then
      (V3D_PROJ_RET_CLIP_FAR, r_co)
    else
      let scalar : F32 := if F32.ne w (F32.fin 0) then F32.fin 1 / w else F32.fin 0
      let fx : F32 := (F32.of_int region.winx / F32.fin 2) * (F32.fin 1 + (vec4.x * scalar))
      let fy : F32 := (F32.of_int region.winy / F32.fin 2) * (F32.fin 1 + (vec4.y * scalar))
      if test_bit flag E.V3D_PROJ_TEST_CLIP_WIN
          && (F32.le fx (F32.fin 0) || F32.le fy (F32.fin 0)
              || F32.ge fx (F32.of_int region.winx) || F32.ge fy (F32.of_int region.winy)) then
        (V3D_PROJ_RET_CLIP_WIN, r_co)
      else
        (V3D_PROJ_RET_OK, ⟨fx, fy⟩)

/-- The function `ED_view3d_project_short_ex`, in binary32. The local `tvec` is not
initialised in C; its first contents are the argument `tvec`. The result `r_co` holds two
`short` values. -/
def ED_view3d_project_short_ex (E : ViewEnv) (region : ARegion) (perspmat : M4f)
    (is_local : Bool) (co : V3f) (r_co : Int × Int) (flag : Nat) (tvec : V2f) :
    eV3DProjStatus × (Int × Int) :=
  let (ret, tvec) := ed_view3d_project__internal E region perspmat is_local co tvec flag
  if ret = V3D_PROJ_RET_OK then
    if (F32.gt tvec.x (F32.fin (-32700)) && F32.lt tvec.x (F32.fin 32700))
        && (F32.gt tvec.y (F32.fin (-32700)) && F32.lt tvec.y (F32.fin 32700)) then
      (ret, (short_of_float (F32.floorf tvec.x), short_of_float (F32.floorf tvec.y)))
    else
      (V3D_PROJ_RET_OVERFLOW, r_co)
  else
    (ret, r_co)

/-- The function `ED_view3d_project_int_ex`, in binary32. The local `tvec` is not
initialised in C; its first contents are the argument `tvec`. The result `r_co` holds two
`int` values. -/
def ED_view3d_project_int_ex (E : ViewEnv) (region : ARegion) (perspmat : M4f)
    (is_local : Bool) (co : V3f) (r_co : Int × Int) (flag : Nat) (tvec : V2f) :
    eV3DProjStatus × (Int × Int) :=
  let (ret, tvec) := ed_view3d_project__internal E region perspmat is_local co tvec flag
  if ret = V3D_PROJ_RET_OK then
    if (F32.gt tvec.x (F32.fin (-2140000000)) && F32.lt tvec.x (F32.fin 2140000000))
        && (F32.gt tvec.y (F32.fin (-2140000000)) && F32.lt tvec.y (F32.fin 2140000000)) then
      (ret, (int_of_float (F32.floorf tvec.x), int_of_float (F32.floorf tvec.y)))
    else
      (V3D_PROJ_RET_OVERFLOW, r_co)
  else
    (ret, r_co)

/-! ## Vector helpers of the math library -/

/-- Modelled from the spec: `dot_v3v3` of the math library (not part of the listing), the
dot product. -/
def dot_v3v3 (a b : V3) : float := a.x * b.x + a.y * b.y + a.z * b.z

/-- Modelled from the spec: `sub_v3_v3v3` of the math library (not part of the listing),
`r = a - b`. -/
def sub_v3_v3v3 (a b : V3) : V3 := ⟨a.x - b.x, a.y - b.y, a.z - b.z⟩

/-- Modelled from the spec: `sub_v3_v3` of the math library (not part of the listing),
`r -= a`. -/
def sub_v3_v3 (r a : V3) : V3 := ⟨r.x - a.x, r.y - a.y, r.z - a.z⟩

/-- Modelled from the spec: `negate_v3_v3` of the math library (not part of the listing),
`r = -a`. -/
def negate_v3_v3 (a : V3) : V3 := ⟨-a.x, -a.y, -a.z⟩

/-- Modelled from the spec: `mul_v3_fl` of the math library (not part of the listing); it
scales the first three entries and leaves a fourth one alone. -/
def mul_v3_fl (r : V4) (f : float) : V4 := ⟨r.x * f, r.y * f, r.z * f, r.w⟩

/-- Modelled from the spec: the libm function `sqrtf`. It is exact on the squares of
rationals; elsewhere the root is taken of numerator and denominator apart, rounded down. -/
def sqrtf (f : float) : float := (Nat.sqrt f.num.toNat : ℚ) / (Nat.sqrt f.den : ℚ)

/-- Modelled from the spec: `normalize_v3` of the math library (not part of the listing),
the `normalize` of the claims: the vector divided by its length, and the zero vector when
the squared length is not above `1.0e-35`. -/
def normalize_v3 (n : V3) : V3 :=
  let d := dot_v3v3 n n
  if d > 1 / 10 ^ 35 then
    let d := sqrtf d
    ⟨n.x * (1 / d), n.y * (1 / d), n.z * (1 / d)⟩
  else
    ⟨0, 0, 0⟩

/-- Modelled from the spec: `mul_project_m4_v3_zfac` of the math library (not part of the
listing), the raw projection factor of the claims: the fourth entry of `mat * (co, 1)`. -/
def mul_project_m4_v3_zfac (mat : M4) (co : V3) : float :=
  mat.m0.w * co.x + mat.m1.w * co.y + mat.m2.w * co.z + mat.m3.w

/-- Modelled from the spec: `mul_m4_v3` of the math library (not part of the listing), the
first three entries of `mat * (r, 1)`. -/
def mul_m4_v3 (mat : M4) (r : V3) : V3 :=
  ⟨r.x * mat.m0.x + r.y * mat.m1.x + mat.m2.x * r.z + mat.m3.x,
   r.x * mat.m0.y + r.y * mat.m1.y + mat.m2.y * r.z + mat.m3.y,
   r.x * mat.m0.z + r.y * mat.m1.z + mat.m2.z * r.z + mat.m3.z⟩

/-- Modelled from the spec: `mul_project_m4_v3` of the math library (not part of the
listing): `mat * (vec, 1)` divided by the absolute value of its fourth entry. -/
def mul_project_m4_v3 (mat : M4) (vec : V3) : V3 :=
  let w := fabsf (mul_project_m4_v3_zfac mat vec)
  let vec := mul_m4_v3 mat vec
  ⟨vec.x / w, vec.y / w, vec.z / w⟩

/-! ## Window, ray and vector functions -/

/-- The literal `1.e-6f`: the binary32 value nearest to one millionth, `8796093 / 2^43`. -/
def FLT_1e_6 : F32 := F32.fin (8796093 / 8796093022208)

/-- The function `ED_view3d_calc_zfac`, in binary32; `r_flip` is `none` for a NULL pointer,
and else holds what the pointer points to. -/
def ED_view3d_calc_zfac (rv3d : RegionView3D) (co : V3f) (r_flip : Option Bool) :
    F32 × Option Bool :=
  let zfac := Binary32.mul_project_m4_v3_zfac rv3d.persmat co
  let r_flip := r_flip.map (fun _ => F32.lt zfac (F32.fin 0))
  let zfac := if F32.lt zfac FLT_1e_6 && F32.gt zfac (-FLT_1e_6) then F32.fin 1 else zfac
  let zfac := if F32.lt zfac (F32.fin 0) then -zfac else zfac
  (zfac, r_flip)

/-- The function `ED_view3d_global_to_vector`; the result is `vec`. -/
def ED_view3d_global_to_vector (rv3d : RegionView3D) (coord : V3) : V3 :=
  let vec : V3 :=
    if rv3d.is_persp then
      let p1 : V4 := ⟨coord.x, coord.y, coord.z, 1⟩
      let p2 : V4 := ⟨p1.x, p1.y, p1.z, 1⟩
      let p2 := mul_m4_v4 rv3d.viewmat p2
      let p2 := mul_v3_fl p2 2
      let p2 := mul_m4_v4 rv3d.viewinv p2
      sub_v3_v3v3 p1.xyz p2.xyz
    else
      rv3d.viewinv.m2.xyz
  normalize_v3 vec

/-- The function `ED_view3d_win_to_origin`; the result is `out`. -/
def ED_view3d_win_to_origin (E : ViewEnv) (region : ARegion) (mval : V2) : V3 :=
  let rv3d := region.regiondata
  if rv3d.is_persp then
    rv3d.viewinv.m3.xyz
  else
    let out0 : float := 2 * mval.x / (region.winx : float) - 1
    let out1 : float := 2 * mval.y / (region.winy : float) - 1
    let out2 : float := if rv3d.persp = E.RV3D_CAMOB then -1 else 0
    mul_project_m4_v3 rv3d.persinv ⟨out0, out1, out2⟩

/-- The function `ED_view3d_win_to_vector`; the result is `out`. -/
def ED_view3d_win_to_vector (region : ARegion) (mval : V2) : V3 :=
  let rv3d := region.regiondata
  let out : V3 :=
    if rv3d.is_persp then
      let out : V3 := ⟨2 * (mval.x / (region.winx : float)) - 1,
                       2 * (mval.y / (region.winy : float)) - 1,
                       -(1 / 2)⟩
      let out := mul_project_m4_v3 rv3d.persinv out
      sub_v3_v3 out rv3d.viewinv.m3.xyz
    else
      negate_v3_v3 rv3d.viewinv.m2.xyz
  normalize_v3 out

/-- The function `ED_view3d_win_to_ray`; the result is `(r_ray_start, r_ray_normal)`. -/
def ED_view3d_win_to_ray (E : ViewEnv) (region : ARegion) (mval : V2) : V3 × V3 :=
  (ED_view3d_win_to_origin E region mval, ED_view3d_win_to_vector region mval)

/-- Modelled from the spec: `madd_v3_v3v3fl` of the math library (not part of the listing),
`r = a + b * f`. -/
def madd_v3_v3v3fl (a b : V3) (f : float) : V3 := ⟨a.x + b.x * f, a.y + b.y * f, a.z + b.z * f⟩

/-- The function `view3d_win_to_ray_segment`. Each of the four output pointers is `none` for
NULL and else holds what it points to; the result is the four after the call. -/
def view3d_win_to_ray_segment (E : ViewEnv) (depsgraph : Depsgraph) (region : ARegion)
    (v3d : View3D) (mval : V2) (r_ray_co r_ray_dir r_ray_start r_ray_end : Option V3) :
    Option V3 × Option V3 × Option V3 × Option V3 :=
  let rv3d := region.regiondata
  let ray_co := ED_view3d_win_to_origin E region mval
  let ray_dir := ED_view3d_win_to_vector region mval
  let (start_offset, end_offset) : float × float :=
    if rv3d.is_persp = false ∧ rv3d.persp ≠ E.RV3D_CAMOB then
      (-(v3d.clip_end / 2), v3d.clip_end / 2)
    else
      E.ED_view3d_clip_range_get depsgraph v3d rv3d false
  (r_ray_co.map (fun _ => ray_co),
   r_ray_dir.map (fun _ => ray_dir),
   r_ray_start.map (fun _ => madd_v3_v3v3fl ray_co ray_dir start_offset),
   r_ray_end.map (fun _ => madd_v3_v3v3fl ray_co ray_dir end_offset))

/-- The function `ED_view3d_clip_segment`; the result is the return value with `ray_start`
and `ray_end` after the call. -/
def ED_view3d_clip_segment (E : ViewEnv) (rv3d : RegionView3D) (ray_start ray_end : V3) :
    Bool × V3 × V3 :=
  if test_bit rv3d.rflag E.RV3D_CLIPPING then
    let (ok, ray_start, ray_end) := E.clip_segment_v3_plane_n ray_start ray_end rv3d.clip 6
    if ok = false then (false, ray_start, ray_end) else (true, ray_start, ray_end)
  else
    (true, ray_start, ray_end)

/-- The function `ED_view3d_win_to_ray_clipped_ex`. The pointers `r_ray_co` and
`r_ray_normal` may be NULL (`none`); `r_ray_start` is not NULL. The result is the return
value with `r_ray_co`, `r_ray_normal` and `r_ray_start` after the call. -/
def ED_view3d_win_to_ray_clipped_ex (E : ViewEnv) (depsgraph : Depsgraph) (region : ARegion)
    (v3d : View3D) (mval : V2) (r_ray_co r_ray_normal : Option V3) (r_ray_start : V3)
    (do_clip_planes : Bool) (ray_end : V3) : Bool × Option V3 × Option V3 × V3 :=
  let (r_ray_co, r_ray_normal, r_ray_start1, ray_end1) :=
    view3d_win_to_ray_segment E depsgraph region v3d mval r_ray_co r_ray_normal
      (some r_ray_start) (some ray_end)
  let r_ray_start := r_ray_start1.getD r_ray_start
  let ray_end := ray_end1.getD ray_end
  if do_clip_planes then
    let (ret, r_ray_start, _) := ED_view3d_clip_segment E region.regiondata r_ray_start ray_end
    (ret, r_ray_co, r_ray_normal, r_ray_start)
  else
    (true, r_ray_co, r_ray_normal, r_ray_start)

/-- The function `ED_view3d_win_to_ray_clipped`; the result is the return value with
`r_ray_start` and `r_ray_normal` after the call. -/
def ED_view3d_win_to_ray_clipped (E : ViewEnv) (depsgraph : Depsgraph) (region : ARegion)
    (v3d : View3D) (mval : V2) (r_ray_start : V3) (r_ray_normal : Option V3)
    (do_clip_planes : Bool) (ray_end : V3) : Bool × V3 × Option V3 :=
  let (ret, _, r_ray_normal, r_ray_start) :=
    ED_view3d_win_to_ray_clipped_ex E depsgraph region v3d mval none r_ray_normal r_ray_start
      do_clip_planes ray_end
  (ret, r_ray_start, r_ray_normal)

/-- The function `ED_view3d_win_to_segment_clipped`; neither pointer is NULL, and the result
is the return value with `r_ray_start` and `r_ray_end` after the call. -/
def ED_view3d_win_to_segment_clipped (E : ViewEnv) (depsgraph : Depsgraph) (region : ARegion)
    (v3d : View3D) (mval : V2) (r_ray_start r_ray_end : V3) (do_clip_planes : Bool) :
    Bool × V3 × V3 :=
  let (_, _, r_ray_start1, r_ray_end1) :=
    view3d_win_to_ray_segment E depsgraph region v3d mval none none
      (some r_ray_start) (some r_ray_end)
  let r_ray_start := r_ray_start1.getD r_ray_start
  let r_ray_end := r_ray_end1.getD r_ray_end
  if do_clip_planes then
    ED_view3d_clip_segment E region.regiondata r_ray_start r_ray_end
  else
    (true, r_ray_start, r_ray_end)

/-- A C string: the characters before the terminating NUL. -/
abbrev CString := List Char

/-- The type tags of `IDProperty`. -/
inductive eIDPropertyType where
  | IDP_STRING
  | IDP_INT
  | IDP_FLOAT
  | IDP_ARRAY
  | IDP_GROUP
  | IDP_ID
  | IDP_DOUBLE
  | IDP_IDPARRAY
  deriving DecidableEq

open eIDPropertyType

/-- A member of a property group: its name, its type tag, and the characters at
`data.pointer` (the string of an `IDP_STRING` property; other data are not modelled). -/
structure IDProperty where
  name : CString
  type : eIDPropertyType
  data : CString
  deriving DecidableEq

/-- An `IDProperty` of type `IDP_GROUP`: its name and the list `data.group` of its members. -/
structure IDPropertyGroup where
  name : CString
  group : List IDProperty
  deriving DecidableEq

/-- A pointer to a property: to a member of the group at hand, by its place in the list, or
to a property that is in no group. -/
inductive PropPtr where
  | member (i : Nat)
  | loose (p : IDProperty)
  deriving DecidableEq

/-- The place of the first property called `name`, if there is one. -/
def find_name (name : CString) : List IDProperty → Option Nat
  | [] => none
  | p :: ps => if p.name = name then some 0 else (find_name name ps).map (· + 1)

/-- Modelled from the spec: `IDP_GetPropertyFromGroup` of the property bag (not part of the
listing): a pointer to the first member called `name`, or NULL. -/
def IDP_GetPropertyFromGroup (prop : IDPropertyGroup) (name : CString) : Option Nat :=
  find_name name prop.group

/-- The member a pointer into the group points to. -/
def IDPropertyGroup.deref (g : IDPropertyGroup) (i : Nat) : Option IDProperty := g.group[i]?

/-- Modelled from the spec: `IDP_FreeFromGroup` of the property bag (not part of the
listing): the member is unlinked from the group and freed. -/
def IDP_FreeFromGroup (group : IDPropertyGroup) (i : Nat) : IDPropertyGroup :=
  { group with group := group.group.eraseIdx i }

/-- Modelled from the spec: `IDP_NewString` of the property bag (not part of the listing)
with `maxlen = 0`: a new string property called `name` holding `st`. -/
def IDP_NewString (st name : CString) : IDProperty := ⟨name, IDP_STRING, st⟩

/-- Modelled from the spec: `IDP_AddToGroup` of the property bag (not part of the listing):
the property is appended unless the group has a member of that name. The second result is
where the property is afterwards. -/
def IDP_AddToGroup (group : IDPropertyGroup) (prop : IDProperty) : IDPropertyGroup × PropPtr :=
  match IDP_GetPropertyFromGroup group prop.name with
  | none => ({ group with group := group.group ++ [prop] }, PropPtr.member group.group.length)
  | some _ => (group, PropPtr.loose prop)

/-- Modelled from the spec: `IDP_AssignString` of the property bag (not part of the listing)
with `maxlen = 0`: the string of the property becomes `st`. A property in no group is not
part of the result. -/
def IDP_AssignString (group : IDPropertyGroup) (prop : PropPtr) (st : CString) :
    IDPropertyGroup :=
  match prop with
  | PropPtr.member i =>
    { group with group := group.group.modify (fun p => { p with data := st }) i }
  | PropPtr.loose _ => group

/-- The largest value of the C type `size_t` (64 bits). -/
def SIZE_MAX : Nat := 18446744073709551615

/-- Modelled from the spec: `BLI_strncpy` of the string library (not part of the listing):
at most `maxncpy - 1` characters of `src` and a terminating NUL are written. The
subtraction is one of `size_t`, which wraps; the library asserts `maxncpy != 0`. -/
def BLI_strncpy (src : CString) (maxncpy : Nat) : CString :=
  src.take ((maxncpy + SIZE_MAX) % (SIZE_MAX + 1))

/-- The function `IMB_metadata_get_field`; `metadata` is `none` for NULL, `field` is the
contents of the caller's buffer, and the result is the return value with the buffer. -/
def IMB_metadata_get_field (metadata : Option IDPropertyGroup) (key : CString)
    (field : CString) (len : Nat) : Bool × CString :=
  match metadata with
  | none => (false, field)
  | some metadata =>
    match (IDP_GetPropertyFromGroup metadata key).bind metadata.deref with
    | some prop =>
      if prop.type = IDP_STRING then (true, BLI_strncpy prop.data len) else (false, field)
    | none => (false, field)

/-- The function `IMB_metadata_set_field`; `metadata` is not NULL (asserted). -/
def IMB_metadata_set_field (metadata : IDPropertyGroup) (key value : CString) :
    IDPropertyGroup :=
  let prop := IDP_GetPropertyFromGroup metadata key
  let (metadata, prop) :=
    match prop with
    | some i =>
      if (metadata.deref i).map (·.type) ≠ some IDP_STRING then
        (IDP_FreeFromGroup metadata i, none)
      else
        (metadata, some i)
    | none => (metadata, none)
  let (metadata, prop) :=
    match prop with
    | none => IDP_AddToGroup metadata (IDP_NewString value key)
    | some i => (metadata, PropPtr.member i)
  IDP_AssignString metadata prop value

/-- Modelled from the spec: `IDP_New` of the property bag (not part of the listing), for the
type `IDP_GROUP` and a zeroed template: a new group called `name` that has no members. -/
def IDP_New (name : CString) : IDPropertyGroup := ⟨name, []⟩

/-- The function `IMB_metadata_ensure`; the argument is `*metadata` before the call (`none`
for NULL) and the result is `*metadata` after it. -/
def IMB_metadata_ensure (metadata : Option IDPropertyGroup) : Option IDPropertyGroup :=
  match metadata with
  | some group => some group
  | none => some (IDP_New ['m', 'e', 't', 'a', 'd', 'a', 't', 'a'])

/-- The invariant of a property group: no two members have the same name. -/
def IDPropertyGroup.WellFormed (g : IDPropertyGroup) : Prop :=
  (g.group.map (fun p => p.name)).Nodup

instance (g : IDPropertyGroup) : Decidable g.WellFormed := by
  unfold IDPropertyGroup.WellFormed
  infer_instance

/-- A pointer to metadata as the functions may receive it: NULL, or a well-formed group. -/
def metadata_valid : Option IDPropertyGroup → Prop
  | none => True
  | some g => g.WellFormed

instance (metadata : Option IDPropertyGroup) : Decidable (metadata_valid metadata) := by
  cases metadata
  · exact isTrue trivial
  · unfold metadata_valid
    infer_instance

/-! ## Multi-functions of nodes -/

/-- A `const bNode *`, by its address. -/
abbrev bNodePtr := Nat

/-- A `const MultiFunction *`: `none` is `nullptr`, and else the address. -/
abbrev MultiFunctionPtr := Option Nat

/-- Modelled from the spec: the container `Map` (not part of the listing), a simple mapping:
the keys with their values, each key once. -/
structure Map (K V : Type) where
  slots : List (K × V)
  keys_nodup : (slots.map Prod.fst).Nodup

/-- Modelled from the spec: `Map::lookup_default` (not part of the listing), a direct lookup:
the value stored under `key`, and `default_value` when `key` is not in the map. -/
def Map.lookup_default {K V : Type} [DecidableEq K] (m : Map K V) (key : K)
    (default_value : V) : V :=
  match m.slots.find? (fun kv => decide (kv.1 = key)) with
  | some kv => kv.2
  | none => default_value

/-- A `NodeRef`, with what `bnode()` returns. -/
structure NodeRef where
  bnode : bNodePtr

/-- A `DNode`: a context and a `NodeRef`; `node->` reads the `NodeRef`. -/
structure DNode where
  context : Nat
  node_ref : NodeRef

/-- The class `NodeMultiFunctions`. -/
structure NodeMultiFunctions where
  map_ : Map bNodePtr MultiFunctionPtr

/-- The method `NodeMultiFunctions::try_get`; the object after the call is the first
result. -/
def NodeMultiFunctions.try_get (self : NodeMultiFunctions) (node : DNode) :
    NodeMultiFunctions × MultiFunctionPtr :=
  (self, self.map_.lookup_default node.node_ref.bnode none)

/-! ## Compositor nodes -/

/-- The values of `DataType`. -/
inductive DataType where
  | Value
  | Vector
  | Color
  deriving DecidableEq

/-- An output socket of a node: its address, its data type, and the float value that the
editor holds for it. -/
structure NodeOutput where
  addr : Nat
  data_type : DataType
  editor_value_float : float
  deriving DecidableEq

/-- An input socket of a node: its address, its data type, and the output socket it is linked
to (`none` when it is not linked). -/
structure NodeInput where
  addr : Nat
  data_type : DataType
  link : Option NodeOutput
  deriving DecidableEq

/-- The class `Node`: its input and output sockets. -/
structure Node where
  inputs : List NodeInput
  outputs : List NodeOutput
  deriving DecidableEq

/-- The method `Node::get_input_socket`; `none` when there is no socket of that index. -/
def Node.get_input_socket (self : Node) (index : Nat) : Option NodeInput := self.inputs[index]?

/-- The method `Node::get_output_socket`; `none` when there is no socket of that index. -/
def Node.get_output_socket (self : Node) (index : Nat) : Option NodeOutput :=
  self.outputs[index]?

/-- The method `NodeInput::get_data_type`. -/
def NodeInput.get_data_type (self : NodeInput) : DataType := self.data_type

/-- The method `NodeInput::is_linked`. -/
def NodeInput.is_linked (self : NodeInput) : Bool := self.link.isSome

/-- The method `NodeInput::get_link`; `none` is a NULL pointer. -/
def NodeInput.get_link (self : NodeInput) : Option NodeOutput := self.link

/-- The method `NodeOutput::get_data_type`. -/
def NodeOutput.get_data_type (self : NodeOutput) : DataType := self.data_type

/-- The method `NodeOutput::get_editor_value_float`. -/
def NodeOutput.get_editor_value_float (self : NodeOutput) : float := self.editor_value_float

/-- The operations that the two nodes create: a `PixelateOperation` with the data type given
to its constructor, and a `SetValueOperation` with its value. -/
inductive NodeOperation where
  | PixelateOperation (datatype : DataType)
  | SetValueOperation (value : float)
  deriving DecidableEq

/-- A socket of an operation: the operation and the index of the socket. -/
structure NodeOperationSocket where
  operation : NodeOperation
  index : Nat
  deriving DecidableEq

/-- The method `NodeOperation::get_input_socket`. -/
def NodeOperation.get_input_socket (self : NodeOperation) (index : Nat) :
    NodeOperationSocket := ⟨self, index⟩

/-- The method `NodeOperation::get_output_socket`; the index is `0` when none is given. -/
def NodeOperation.get_output_socket (self : NodeOperation) (index : Nat) :
    NodeOperationSocket := ⟨self, index⟩

/-- The method `SetValueOperation::set_value`; other operations have no such method and are
left as they are. -/
def NodeOperation.set_value (self : NodeOperation) (value : float) : NodeOperation :=
  match self with
  | NodeOperation.SetValueOperation _ => NodeOperation.SetValueOperation value
  | other => other

/-- Modelled from the spec: the class `NodeConverter` (not part of the listing): the
operations added so far, and the input and output sockets of nodes mapped so far, each with
the socket of an operation it is mapped to. -/
structure NodeConverter where
  operations : List NodeOperation
  input_map : List (NodeInput × NodeOperationSocket)
  output_map : List (NodeOutput × NodeOperationSocket)
  deriving DecidableEq

/-- Modelled from the spec: `NodeConverter::add_operation` (not part of the listing). -/
def NodeConverter.add_operation (self : NodeConverter) (operation : NodeOperation) :
    NodeConverter :=
  { self with operations := self.operations ++ [operation] }

/-- Modelled from the spec: `NodeConverter::map_input_socket` (not part of the listing). -/
def NodeConverter.map_input_socket (self : NodeConverter) (node_socket : NodeInput)
    (operation_socket : NodeOperationSocket) : NodeConverter :=
  { self with input_map := self.input_map ++ [(node_socket, operation_socket)] }

/-- Modelled from the spec: `NodeConverter::map_output_socket` (not part of the listing). -/
def NodeConverter.map_output_socket (self : NodeConverter) (node_socket : NodeOutput)
    (operation_socket : NodeOperationSocket) : NodeConverter :=
  { self with output_map := self.output_map ++ [(node_socket, operation_socket)] }

/-- The method `PixelateNode::convert_to_operations`; the context is not used. The result is
the converter after the call, and `none` when the node lacks input 0 or output 0. -/
def PixelateNode.convert_to_operations (self : Node) (converter : NodeConverter) :
    Option NodeConverter := do
  let input_socket ← self.get_input_socket 0
  let output_socket ← self.get_output_socket 0
  let datatype := input_socket.get_data_type
  let datatype :=
    if input_socket.is_linked then
      match input_socket.get_link with
      | some link => link.get_data_type
      | none => datatype
    else
      datatype
  let operation := NodeOperation.PixelateOperation datatype
  let converter := converter.add_operation operation
  let converter := converter.map_input_socket input_socket (operation.get_input_socket 0)
  let converter := converter.map_output_socket output_socket (operation.get_output_socket 0)
  pure converter

/-- The method `ValueNode::convert_to_operations`; the context is not used. The result is the
converter after the call, and `none` when the node lacks output 0. The value of the new
operation before `set_value` is never read; it is `0` here. -/
def ValueNode.convert_to_operations (self : Node) (converter : NodeConverter) :
    Option NodeConverter := do
  let operation := NodeOperation.SetValueOperation 0
  let output ← self.get_output_socket 0
  let operation := operation.set_value output.get_editor_value_float
  let converter := converter.add_operation operation
  let converter := converter.map_output_socket output (operation.get_output_socket 0)
  pure converter

/-! ## Fixtures for the worked examples -/

/-- One choice of values for what lies outside the listing: five distinct test bits, a
clipping bit, a camera value, a clipping test that clips no point, the clip range of the
viewport, and a segment clipper that clips every segment away. -/
def ViewEnv.std : ViewEnv :=
  { V3D_PROJ_TEST_CLIP_BB := 1
    V3D_PROJ_TEST_CLIP_WIN := 2
    V3D_PROJ_TEST_CLIP_NEAR := 4
    V3D_PROJ_TEST_CLIP_FAR := 8
    V3D_PROJ_TEST_CLIP_ZERO := 16
    RV3D_CLIPPING := 4
    RV3D_CAMOB := 2
    CAMERA_SENSOR_FIT_HOR := 1
    ED_view3d_clipping_test := fun _ _ _ => false
    ED_view3d_clip_range_get := fun _ v3d _ _ => (v3d.clip_start, v3d.clip_end)
    clip_segment_v3_plane_n := fun p1 p2 _ _ => (false, p1, p2)
    BKE_camera_sensor_fit := fun sensor_fit _ _ => sensor_fit
    BKE_screen_view3d_zoom_to_fac := fun _ => 1 }

/-- A view whose matrices are all the identity: the viewpoint is the origin. -/
def RegionView3D.unit (is_persp : Bool) : RegionView3D :=
  { rflag := 0
    is_persp := is_persp
    persp := 0
    persmat := M4f.unit
    persmatob := M4f.unit
    persinv := M4.unit
    viewmat := M4.unit
    viewinv := M4.unit
    winmat := M4.unit
    camzoom := 0
    camdx := 0
    camdy := 0
    clip := [] }

/-- A view whose `persmat` has the finite binary32 entries `2^127` and `-2^127` in its
fourth row, and is the identity elsewhere. -/
def RegionView3D.huge (is_persp : Bool) : RegionView3D :=
  { RegionView3D.unit is_persp with
    persmat :=
      ⟨⟨F32.fin 1, F32.fin 0, F32.fin 0, F32.fin (2 ^ 127)⟩,
       ⟨F32.fin 0, F32.fin 1, F32.fin 0, F32.fin (-2 ^ 127)⟩,
       ⟨F32.fin 0, F32.fin 0, F32.fin 1, F32.fin 0⟩,
       ⟨F32.fin 0, F32.fin 0, F32.fin 0, F32.fin 1⟩⟩ }

/-- A view from the point `(0, 0, 5)` down the negative z axis: `viewmat` moves the world by
`(0, 0, -5)` and `viewinv` is its inverse, so the viewpoint `viewinv[3]` is `(0, 0, 5)`. -/
def RegionView3D.from_z5 (is_persp : Bool) : RegionView3D :=
  { RegionView3D.unit is_persp with
    viewmat := ⟨⟨1, 0, 0, 0⟩, ⟨0, 1, 0, 0⟩, ⟨0, 0, 1, 0⟩, ⟨0, 0, -5, 1⟩⟩
    viewinv := ⟨⟨1, 0, 0, 0⟩, ⟨0, 1, 0, 0⟩, ⟨0, 0, 1, 0⟩, ⟨0, 0, 5, 1⟩⟩ }

/-- A region of 100 by 100 pixels on the unit view. -/
def ARegion.unit (is_persp : Bool) : ARegion :=
  { winx := 100, winy := 100, regiondata := RegionView3D.unit is_persp }

/-! ## Theorems -/

/-- A chain of tests that reports the first one to fail, as the clipping projection is
built: what it returns in each case. -/
theorem status_chain_spec (bb zero near far win : Prop) [Decidable bb] [Decidable zero]
    [Decidable near] [Decidable far] [Decidable win] {α : Type} (r_co p : α) :
    let out : eV3DProjStatus × α :=
      if bb then (V3D_PROJ_RET_CLIP_BB, r_co)
      else if zero then (V3D_PROJ_RET_CLIP_ZERO, r_co)
      else if near then (V3D_PROJ_RET_CLIP_NEAR, r_co)
      else if far then (V3D_PROJ_RET_CLIP_FAR, r_co)
      else if win then (V3D_PROJ_RET_CLIP_WIN, r_co)
      else (V3D_PROJ_RET_OK, p)
    (bb → out.1 = V3D_PROJ_RET_CLIP_BB)
    ∧ (¬bb → zero → out.1 = V3D_PROJ_RET_CLIP_ZERO)
    ∧ (¬bb → ¬zero → near → out.1 = V3D_PROJ_RET_CLIP_NEAR)
    ∧ (¬bb → ¬zero → ¬near → far → out.1 = V3D_PROJ_RET_CLIP_FAR)
    ∧ (¬bb → ¬zero → ¬near → ¬far → win → out.1 = V3D_PROJ_RET_CLIP_WIN)
    ∧ (out.1 = V3D_PROJ_RET_OK ↔ ¬bb ∧ ¬zero ∧ ¬near ∧ ¬far ∧ ¬win)
    ∧ (out.1 = V3D_PROJ_RET_OK → out.2 = p)
    ∧ (out.1 ≠ V3D_PROJ_RET_OK → out.2 = r_co) := by
  by_cases hbb : bb <;> by_cases hz : zero <;> by_cases hn : near <;> by_cases hf : far <;>
    by_cases hw : win <;> simp [hbb, hz, hn, hf, hw]

/-- C3: `ed_view3d_project__internal` applies its clipping tests in a fixed priority and
reports the first requested test that fails: with `v = perspmat * (co, 1)` and `w = |v.w|`,
all in binary32, the status is `CLIP_BB`, else `CLIP_ZERO` (`w <= (float)0.001`), else
`CLIP_NEAR` (`v.z <= -w`), else `CLIP_FAR` (`v.z >= w`), else `CLIP_WIN` (`fx <= 0`,
`fy <= 0`, `fx >= winx` or `fy >= winy`), each when the test is requested, and else `OK`; the
status is `OK` if and only if no requested test fails; on `OK` the screen point `(fx, fy)` is
written, and on any other status `r_co` is left as it was. -/
theorem ed_view3d_project__internal_priority (E : ViewEnv) (region : ARegion) (perspmat : M4f)
    (is_local : Bool) (co : V3f) (r_co : V2f) (flag : Nat) :
    let rv3d := region.regiondata
    let v := Binary32.mul_m4_v4 perspmat ⟨co.x, co.y, co.z, F32.fin 1⟩
    let w : F32 := F32.fabsf v.w
    let scalar : F32 := if F32.ne w (F32.fin 0) then F32.fin 1 / w else F32.fin 0
    let fx : F32 := (F32.of_int region.winx / F32.fin 2) * (F32.fin 1 + (v.x * scalar))
    let fy : F32 := (F32.of_int region.winy / F32.fin 2) * (F32.fin 1 + (v.y * scalar))
    let bb : Prop := test_bit flag E.V3D_PROJ_TEST_CLIP_BB = true
      ∧ test_bit rv3d.rflag E.RV3D_CLIPPING = true
      ∧ E.ED_view3d_clipping_test rv3d co is_local = true
    let zero : Prop := test_bit flag E.V3D_PROJ_TEST_CLIP_ZERO = true
      ∧ F32.le w (F32.fin (8589935 / 8589934592)) = true
    let near : Prop := test_bit flag E.V3D_PROJ_TEST_CLIP_NEAR = true ∧ F32.le v.z (-w) = true
    let far : Prop := test_bit flag E.V3D_PROJ_TEST_CLIP_FAR = true ∧ F32.ge v.z w = true
    let win : Prop := test_bit flag E.V3D_PROJ_TEST_CLIP_WIN = true
      ∧ (F32.le fx (F32.fin 0) = true ∨ F32.le fy (F32.fin 0) = true
        ∨ F32.ge fx (F32.of_int region.winx) = true
        ∨ F32.ge fy (F32.of_int region.winy) = true)
    let out := ed_view3d_project__internal E region perspmat is_local co r_co flag
    (bb → out.1 = V3D_PROJ_RET_CLIP_BB)
    ∧ (¬bb → zero → out.1 = V3D_PROJ_RET_CLIP_ZERO)
    ∧ (¬bb → ¬zero → near → out.1 = V3D_PROJ_RET_CLIP_NEAR)
    ∧ (¬bb → ¬zero → ¬near → far → out.1 = V3D_PROJ_RET_CLIP_FAR)
    ∧ (¬bb → ¬zero → ¬near → ¬far → win → out.1 = V3D_PROJ_RET_CLIP_WIN)
    ∧ (out.1 = V3D_PROJ_RET_OK ↔ ¬bb ∧ ¬zero ∧ ¬near ∧ ¬far ∧ ¬win)
    ∧ (out.1 = V3D_PROJ_RET_OK → out.2 = ⟨fx, fy⟩)
    ∧ (out.1 ≠ V3D_PROJ_RET_OK → out.2 = r_co) := by
  intro rv3d v w scalar fx fy bb zero near far win out
  have hout : out =
      if bb then (V3D_PROJ_RET_CLIP_BB, r_co)
      else if zero then (V3D_PROJ_RET_CLIP_ZERO, r_co)
      else if near then (V3D_PROJ_RET_CLIP_NEAR, r_co)
      else if far then (V3D_PROJ_RET_CLIP_FAR, r_co)
      else if win then (V3D_PROJ_RET_CLIP_WIN, r_co)
      else (V3D_PROJ_RET_OK, ⟨fx, fy⟩) := by
    simp only [out, bb, zero, near, far, win, ed_view3d_project__internal,
      BL_ZERO_CLIP, Bool.and_eq_true, Bool.or_eq_true, and_assoc, or_assoc]
  rw [hout]
  exact status_chain_spec bb zero near far win r_co ⟨fx, fy⟩

/-- An integer of the range of a signed type of `bits` bits is not changed by the wrap. -/
theorem wrap_signed_of_range (bits : Nat) (n : Int) (hb : 0 < bits)
    (hlo : -(2 ^ (bits - 1)) ≤ n) (hhi : n < 2 ^ (bits - 1)) : wrap_signed bits n = n := by
  unfold wrap_signed
  have hp : (2 : Int) ^ bits = 2 * 2 ^ (bits - 1) := by
    obtain ⟨k, rfl⟩ : ∃ k, bits = k + 1 := ⟨bits - 1, by omega⟩
    simp [pow_succ, mul_comm]
  rw [Int.emod_eq_of_lt (by linarith) (by linarith)]
  ring

/-- The floor of a value strictly between `-b` and `b` lies in `[-b, b - 1]`. -/
theorem floor_bounds (f : ℚ) (b : Int) (hlo : -(b : ℚ) < f) (hhi : f < (b : ℚ)) :
    -b ≤ ⌊f⌋ ∧ ⌊f⌋ ≤ b - 1 := by
  constructor
  · apply Int.le_floor.mpr
    push_cast
    exact le_of_lt hlo
  · have : ⌊f⌋ < b := Int.floor_lt.mpr hhi
    omega

/-- A finite value that is an integer is converted to that integer. -/
theorem float_trunc_floor (q : ℚ) : float_trunc ((⌊q⌋ : Int) : ℚ) = ⌊q⌋ := by
  unfold float_trunc
  split <;> simp

/-- The two comparisons `f > a && f < b` against finite bounds hold exactly of the finite
values strictly between the bounds: not of NaN and not of an infinity. -/
theorem F32.between_iff (f : F32) (a b : ℚ) :
    (F32.gt f (F32.fin a) && F32.lt f (F32.fin b)) = true ↔ ∃ q, f = F32.fin q ∧ a < q ∧ q < b := by
  cases f with
  | nan => simp [F32.gt, F32.lt]
  | inf s => cases s <;> simp [F32.gt, F32.lt]
  | fin q => simp [F32.gt, F32.lt]

/-- Inside the interval of `ED_view3d_project_short_ex` the floor and the cast are exact and
the result is a 16-bit value. -/
theorem short_of_float_floorf (q : ℚ) (hlo : -32700 < q) (hhi : q < 32700) :
    short_of_float (F32.floorf (F32.fin q)) = ⌊q⌋ ∧ -32768 ≤ ⌊q⌋ ∧ ⌊q⌋ ≤ 32767 := by
  have b := floor_bounds q 32700 (by exact_mod_cast hlo) (by exact_mod_cast hhi)
  refine ⟨?_, by omega, by omega⟩
  simp only [F32.floorf, short_of_float]
  rw [float_trunc_floor]
  exact wrap_signed_of_range 16 _ (by norm_num) (by norm_num; omega) (by norm_num; omega)

/-- Inside the interval of `ED_view3d_project_int_ex` the floor and the cast are exact and
the result is a 32-bit value. -/
theorem int_of_float_floorf (q : ℚ) (hlo : -2140000000 < q) (hhi : q < 2140000000) :
    int_of_float (F32.floorf (F32.fin q)) = ⌊q⌋ ∧ -2147483648 ≤ ⌊q⌋ ∧ ⌊q⌋ ≤ 2147483647 := by
  have b := floor_bounds q 2140000000 (by exact_mod_cast hlo) (by exact_mod_cast hhi)
  refine ⟨?_, by omega, by omega⟩
  simp only [F32.floorf, int_of_float]
  rw [float_trunc_floor]
  exact wrap_signed_of_range 32 _ (by norm_num) (by norm_num; omega) (by norm_num; omega)

/-- C1: `ED_view3d_project_short_ex` is overflow-safe. With `(fx, fy)` the point the internal
projection writes: the status is `OK` exactly when the internal projection returns `OK` and
both `fx` and `fy` are finite values strictly between `-32700` and `32700`; then `r_co` is
`(floor fx, floor fy)`, and both are in the range of a signed 16-bit integer; when the
internal projection returns `OK` and a coordinate is outside the interval (NaN and the
infinities are outside), the status is `OVERFLOW`. -/
theorem ED_view3d_project_short_ex_overflow_safe (E : ViewEnv) (region : ARegion)
    (perspmat : M4f) (is_local : Bool) (co : V3f) (r_co : Int × Int) (flag : Nat)
    (tvec : V2f) :
    let inner := ed_view3d_project__internal E region perspmat is_local co tvec flag
    let fx := inner.2.x
    let fy := inner.2.y
    let inside : Prop := (∃ qx, fx = F32.fin qx ∧ -32700 < qx ∧ qx < 32700)
      ∧ (∃ qy, fy = F32.fin qy ∧ -32700 < qy ∧ qy < 32700)
    let out := ED_view3d_project_short_ex E region perspmat is_local co r_co flag tvec
    (out.1 = V3D_PROJ_RET_OK ↔ inner.1 = V3D_PROJ_RET_OK ∧ inside)
    ∧ (out.1 = V3D_PROJ_RET_OK →
        ∃ qx qy, fx = F32.fin qx ∧ fy = F32.fin qy
          ∧ out.2 = (⌊qx⌋, ⌊qy⌋)
          ∧ (-32768 ≤ out.2.1 ∧ out.2.1 ≤ 32767) ∧ (-32768 ≤ out.2.2 ∧ out.2.2 ≤ 32767))
    ∧ (inner.1 = V3D_PROJ_RET_OK ∧ ¬inside → out.1 = V3D_PROJ_RET_OVERFLOW) := by
  intro inner fx fy inside out
  have hins : ((F32.gt fx (F32.fin (-32700)) && F32.lt fx (F32.fin 32700))
      && (F32.gt fy (F32.fin (-32700)) && F32.lt fy (F32.fin 32700))) = true
      ↔ inside := by
    rw [Bool.and_eq_true, F32.between_iff, F32.between_iff]
  have hout : out =
      if inner.1 = V3D_PROJ_RET_OK then
        if ((F32.gt fx (F32.fin (-32700)) && F32.lt fx (F32.fin 32700))
            && (F32.gt fy (F32.fin (-32700)) && F32.lt fy (F32.fin 32700))) = true then
          (inner.1, (short_of_float (F32.floorf fx), short_of_float (F32.floorf fy)))
        else (V3D_PROJ_RET_OVERFLOW, r_co)
      else (inner.1, r_co) := rfl
  rw [hout]
  by_cases h1 : inner.1 = V3D_PROJ_RET_OK
  · by_cases hc : ((F32.gt fx (F32.fin (-32700)) && F32.lt fx (F32.fin 32700))
        && (F32.gt fy (F32.fin (-32700)) && F32.lt fy (F32.fin 32700))) = true
    · have h2 : inside := hins.mp hc
      obtain ⟨⟨qx, ex, hx1, hx2⟩, qy, ey, hy1, hy2⟩ := h2
      have h2 : inside := ⟨⟨qx, ex, hx1, hx2⟩, qy, ey, hy1, hy2⟩
      obtain ⟨cx, bx1, bx2⟩ := short_of_float_floorf qx hx1 hx2
      obtain ⟨cy, by1, by2⟩ := short_of_float_floorf qy hy1 hy2
      rw [if_pos h1, if_pos hc]
      refine ⟨⟨fun _ => ⟨h1, h2⟩, fun _ => h1⟩, fun _ => ⟨qx, qy, ex, ey, ?_, ?_, ?_⟩,
        fun h => absurd h2 h.2⟩
      · show (short_of_float (F32.floorf fx), short_of_float (F32.floorf fy)) = (⌊qx⌋, ⌊qy⌋)
        rw [ex, ey, cx, cy]
      · show -32768 ≤ short_of_float (F32.floorf fx) ∧ short_of_float (F32.floorf fx) ≤ 32768 - 1
        rw [ex, cx]
        exact ⟨bx1, by omega⟩
      · show -32768 ≤ short_of_float (F32.floorf fy) ∧ short_of_float (F32.floorf fy) ≤ 32768 - 1
        rw [ey, cy]
        exact ⟨by1, by omega⟩
    · have h2 : ¬inside := mt hins.mpr hc
      rw [if_pos h1, if_neg hc]
      exact ⟨⟨fun h => by simp at h, fun h => absurd h.2 h2⟩, fun h => by simp at h,
        fun _ => rfl⟩
  · rw [if_neg h1]
    exact ⟨⟨fun h => absurd h h1, fun h => absurd h.1 h1⟩, fun h => absurd h h1,
      fun h => absurd h.1 h1⟩

/-- C2: `ED_view3d_project_int_ex` is overflow-safe. With `(fx, fy)` the point the internal
projection writes: the status is `OK` exactly when the internal projection returns `OK` and
both `fx` and `fy` are finite values strictly between `-2140000000` and `2140000000`; then
`r_co` is `(floor fx, floor fy)`, and both are in the range `[-2^31, 2^31 - 1]` of a signed
32-bit integer; when the internal projection returns `OK` and a coordinate is outside the
interval (NaN and the infinities are outside), the status is `OVERFLOW`. -/
theorem ED_view3d_project_int_ex_overflow_safe (E : ViewEnv) (region : ARegion)
    (perspmat : M4f) (is_local : Bool) (co : V3f) (r_co : Int × Int) (flag : Nat)
    (tvec : V2f) :
    let inner := ed_view3d_project__internal E region perspmat is_local co tvec flag
    let fx := inner.2.x
    let fy := inner.2.y
    let inside : Prop := (∃ qx, fx = F32.fin qx ∧ -2140000000 < qx ∧ qx < 2140000000)
      ∧ (∃ qy, fy = F32.fin qy ∧ -2140000000 < qy ∧ qy < 2140000000)
    let out := ED_view3d_project_int_ex E region perspmat is_local co r_co flag tvec
    (out.1 = V3D_PROJ_RET_OK ↔ inner.1 = V3D_PROJ_RET_OK ∧ inside)
    ∧ (out.1 = V3D_PROJ_RET_OK →
        ∃ qx qy, fx = F32.fin qx ∧ fy = F32.fin qy
          ∧ out.2 = (⌊qx⌋, ⌊qy⌋)
          ∧ (-2147483648 ≤ out.2.1 ∧ out.2.1 ≤ 2147483647)
          ∧ (-2147483648 ≤ out.2.2 ∧ out.2.2 ≤ 2147483647))
    ∧ (inner.1 = V3D_PROJ_RET_OK ∧ ¬inside → out.1 = V3D_PROJ_RET_OVERFLOW) := by
  intro inner fx fy inside out
  have hins : ((F32.gt fx (F32.fin (-2140000000)) && F32.lt fx (F32.fin 2140000000))
      && (F32.gt fy (F32.fin (-2140000000)) && F32.lt fy (F32.fin 2140000000))) = true
      ↔ inside := by
    rw [Bool.and_eq_true, F32.between_iff, F32.between_iff]
  have hout : out =
      if inner.1 = V3D_PROJ_RET_OK then
        if ((F32.gt fx (F32.fin (-2140000000)) && F32.lt fx (F32.fin 2140000000))
            && (F32.gt fy (F32.fin (-2140000000)) && F32.lt fy (F32.fin 2140000000))) = true then
          (inner.1, (int_of_float (F32.floorf fx), int_of_float (F32.floorf fy)))
        else (V3D_PROJ_RET_OVERFLOW, r_co)
      else (inner.1, r_co) := rfl
  rw [hout]
  by_cases h1 : inner.1 = V3D_PROJ_RET_OK
  · by_cases hc : ((F32.gt fx (F32.fin (-2140000000)) && F32.lt fx (F32.fin 2140000000))
        && (F32.gt fy (F32.fin (-2140000000)) && F32.lt fy (F32.fin 2140000000))) = true
    · have h2 : inside := hins.mp hc
      obtain ⟨⟨qx, ex, hx1, hx2⟩, qy, ey, hy1, hy2⟩ := h2
      have h2 : inside := ⟨⟨qx, ex, hx1, hx2⟩, qy, ey, hy1, hy2⟩
      obtain ⟨cx, bx1, bx2⟩ := int_of_float_floorf qx hx1 hx2
      obtain ⟨cy, by1, by2⟩ := int_of_float_floorf qy hy1 hy2
      rw [if_pos h1, if_pos hc]
      refine ⟨⟨fun _ => ⟨h1, h2⟩, fun _ => h1⟩, fun _ => ⟨qx, qy, ex, ey, ?_, ?_, ?_⟩,
        fun h => absurd h2 h.2⟩
      · show (int_of_float (F32.floorf fx), int_of_float (F32.floorf fy)) = (⌊qx⌋, ⌊qy⌋)
        rw [ex, ey, cx, cy]
      · show -2147483648 ≤ int_of_float (F32.floorf fx) ∧ int_of_float (F32.floorf fx) ≤ 2147483648 - 1
        rw [ex, cx]
        exact ⟨bx1, by omega⟩
      · show -2147483648 ≤ int_of_float (F32.floorf fy) ∧ int_of_float (F32.floorf fy) ≤ 2147483648 - 1
        rw [ey, cy]
        exact ⟨by1, by omega⟩
    · have h2 : ¬inside := mt hins.mpr hc
      rw [if_pos h1, if_neg hc]
      exact ⟨⟨fun h => by simp at h, fun h => absurd h.2 h2⟩, fun h => by simp at h,
        fun _ => rfl⟩
  · rw [if_neg h1]
    exact ⟨⟨fun h => absurd h h1, fun h => absurd h.1 h1⟩, fun h => absurd h h1,
      fun h => absurd h.1 h1⟩

/-! ### Image metadata -/

/-- The pointer that the search by name returns points to the first member of that name. -/
theorem find_name_deref (key : CString) (l : List IDProperty) :
    (find_name key l).bind (fun i => l[i]?) = l.find? (fun p => decide (p.name = key)) := by
  induction l with
  | nil => rfl
  | cons p ps ih =>
    by_cases h : p.name = key
    · simp [find_name, h]
    · rw [List.find?_cons_of_neg _ (by simpa using h), ← ih]
      simp only [find_name, h, if_false]
      cases find_name key ps <;> simp

/-- The search by name fails exactly when no member has that name. -/
theorem find_name_eq_none (key : CString) (l : List IDProperty) :
    find_name key l = none ↔ ∀ p ∈ l, p.name ≠ key := by
  induction l with
  | nil => simp [find_name]
  | cons p ps ih =>
    by_cases h : p.name = key
    · simp [find_name, h]
    · simp [find_name, h, ih]

/-- A pointer returned by the search by name points to a member of that name. -/
theorem find_name_some (key : CString) (l : List IDProperty) (i : Nat)
    (h : find_name key l = some i) : ∃ p, l[i]? = some p ∧ p.name = key := by
  have h1 := find_name_deref key l
  rw [h] at h1
  simp only [Option.some_bind] at h1
  cases hp : l[i]? with
  | none =>
    rw [hp] at h1
    have := (find_name_eq_none key l).mpr (by
      intro p hm hk
      have := List.find?_eq_none.mp h1.symm p hm
      simp [hk] at this)
    rw [h] at this
    cases this
  | some p =>
    refine ⟨p, rfl, ?_⟩
    rw [hp] at h1
    simpa using List.find?_some h1.symm

/-- Changing the member a search by name has found, without changing its name, leaves the
search where it was and changes that member only. -/
theorem find_name_modify (key : CString) (f : IDProperty → IDProperty)
    (hf : ∀ p, (f p).name = p.name) (l : List IDProperty) (i : Nat)
    (h : find_name key l = some i) :
    find_name key (l.modify f i) = some i ∧ (l.modify f i)[i]? = (l[i]?).map f := by
  induction l generalizing i with
  | nil => simp [find_name] at h
  | cons p ps ih =>
    by_cases hk : p.name = key
    · simp only [find_name, hk, if_true, Option.some.injEq] at h
      subst h
      simp [find_name, hf, hk]
    · simp only [find_name, hk, if_false, Option.map_eq_some'] at h
      obtain ⟨j, hj, rfl⟩ := h
      obtain ⟨h1, h2⟩ := ih j hj
      have e : List.modify f (j + 1) (p :: ps) = p :: List.modify f j ps := rfl
      rw [e]
      simp only [find_name, hk, if_false, h1, Option.map_some', List.getElem?_cons_succ, h2,
        and_self]

/-- In a well-formed group, unlinking the member a search by name has found leaves no member
of that name. -/
theorem find_name_eraseIdx (key : CString) (l : List IDProperty) (i : Nat)
    (hl : (l.map (fun p => p.name)).Nodup) (h : find_name key l = some i) :
    find_name key (l.eraseIdx i) = none := by
  induction l generalizing i with
  | nil => simp [find_name] at h
  | cons p ps ih =>
    rw [List.map_cons, List.nodup_cons] at hl
    by_cases hk : p.name = key
    · simp only [find_name, hk, if_true, Option.some.injEq] at h
      subst h
      rw [List.eraseIdx_cons_zero, find_name_eq_none]
      intro q hq hqk
      exact hl.1 (List.mem_map.mpr ⟨q, hq, by rw [hqk, hk]⟩)
    · simp only [find_name, hk, if_false, Option.map_eq_some'] at h
      obtain ⟨j, hj, rfl⟩ := h
      simp [find_name, hk, ih j hl.2 hj]

/-- Appending a property to a group that has no member of its name: the search by name finds
it, at the end. -/
theorem find_name_append (key : CString) (l : List IDProperty) (q : IDProperty)
    (hq : q.name = key) (h : find_name key l = none) :
    find_name key (l ++ [q]) = some l.length := by
  induction l with
  | nil => simp [find_name, hq]
  | cons p ps ih =>
    by_cases hk : p.name = key
    · simp [find_name, hk] at h
    · simp only [find_name, hk, if_false, Option.map_eq_none'] at h
      simp [find_name, hk, ih h]

/-- After `IMB_metadata_set_field` on a well-formed group, the search for `key` finds a
string property that holds `value`. -/
theorem IMB_metadata_set_field_lookup (metadata : IDPropertyGroup) (key value : CString)
    (hwf : metadata.WellFormed) :
    let after := IMB_metadata_set_field metadata key value
    (IDP_GetPropertyFromGroup after key).bind after.deref = some ⟨key, IDP_STRING, value⟩ := by
  have fresh : ∀ l : List IDProperty, find_name key l = none →
      (find_name key ((l ++ [IDP_NewString value key]).modify
          (fun p => { p with data := value }) l.length)).bind
        (fun i => ((l ++ [IDP_NewString value key]).modify
          (fun p => { p with data := value }) l.length)[i]?)
        = some ⟨key, IDP_STRING, value⟩ := by
    intro l hl
    have ha := find_name_append key l (IDP_NewString value key) rfl hl
    obtain ⟨h1, h2⟩ := find_name_modify key (fun p => { p with data := value })
      (fun _ => rfl) _ _ ha
    rw [h1, Option.some_bind, h2]
    simp [IDP_NewString]
  intro after
  obtain ⟨name, l⟩ := metadata
  simp only [IDPropertyGroup.WellFormed] at hwf
  have hnm : (IDP_NewString value key).name = key := rfl
  cases hfind : find_name key l with
  | none =>
    have hset : after = ⟨name, (l ++ [IDP_NewString value key]).modify
        (fun p => { p with data := value }) l.length⟩ := by
      simp only [after, IMB_metadata_set_field, IDP_GetPropertyFromGroup, hfind,
        IDP_AddToGroup, hnm, IDP_AssignString]
    rw [hset]
    exact fresh l hfind
  | some i =>
    obtain ⟨p, hp, hpk⟩ := find_name_some key l i hfind
    by_cases hty : p.type = IDP_STRING
    · obtain ⟨h1, h2⟩ := find_name_modify key (fun p => { p with data := value })
        (fun _ => rfl) l i hfind
      have hset : after = ⟨name, l.modify (fun p => { p with data := value }) i⟩ := by
        simp [after, IMB_metadata_set_field, IDP_GetPropertyFromGroup, hfind,
          IDPropertyGroup.deref, hp, hty, IDP_AssignString]
      rw [hset]
      simp only [IDP_GetPropertyFromGroup, IDPropertyGroup.deref, h1, Option.some_bind, h2, hp,
        Option.map_some', Option.some.injEq]
      rw [← hpk, ← hty]
    · have he := find_name_eraseIdx key l i hwf hfind
      have hset : after = ⟨name, (l.eraseIdx i ++ [IDP_NewString value key]).modify
          (fun p => { p with data := value }) (l.eraseIdx i).length⟩ := by
        simp [after, IMB_metadata_set_field, IDP_GetPropertyFromGroup, hfind,
          IDPropertyGroup.deref, hp, hty, IDP_FreeFromGroup, IDP_AddToGroup, hnm, he,
          IDP_AssignString]
      rw [hset]
      exact fresh (l.eraseIdx i) he

/-- C4: metadata set/get round trip. For every well-formed group (whether `key` is absent,
present as a string, or present as a property of another type), every key, every value and
every buffer length `len` of type `size_t` that is not zero: after `IMB_metadata_set_field`
the call `IMB_metadata_get_field` returns true, and `field` holds the first `len - 1`
characters of `value` (all of `value` when it is shorter). -/
theorem IMB_metadata_set_get_round_trip (metadata : IDPropertyGroup) (key value : CString)
    (field : CString) (len : Nat) (hwf : metadata.WellFormed) (hlen : 0 < len)
    (hsz : len ≤ SIZE_MAX) :
    let out := IMB_metadata_get_field (some (IMB_metadata_set_field metadata key value))
      key field len
    out.1 = true ∧ out.2 = value.take (len - 1) ∧ out.2.length ≤ len - 1 := by
  intro out
  have h := IMB_metadata_set_field_lookup metadata key value hwf
  have hl : (len + SIZE_MAX) % (SIZE_MAX + 1) = len - 1 := by
    unfold SIZE_MAX at hsz ⊢
    omega
  have hout : out = (true, value.take (len - 1)) := by
    simp only [out, IMB_metadata_get_field]
    simp only [] at h
    rw [h]
    simp [BLI_strncpy, hl]
  rw [hout]
  exact ⟨rfl, rfl, by simp⟩

/-- A worked example of C4: the key `k` is present as an integer property and is set to the
string `abc`; a buffer of 3 bytes then receives `ab`. -/
theorem IMB_metadata_set_get_round_trip_witness :
    (IDPropertyGroup.mk ['m'] [⟨['k'], IDP_INT, []⟩]).WellFormed ∧ 0 < 3 ∧ 3 ≤ SIZE_MAX
    ∧ (IMB_metadata_get_field
        (some (IMB_metadata_set_field (IDPropertyGroup.mk ['m'] [⟨['k'], IDP_INT, []⟩])
          ['k'] ['a', 'b', 'c'])) ['k'] ['z'] 3).1 = true
    ∧ (IMB_metadata_get_field
        (some (IMB_metadata_set_field (IDPropertyGroup.mk ['m'] [⟨['k'], IDP_INT, []⟩])
          ['k'] ['a', 'b', 'c'])) ['k'] ['z'] 3).2 = ['a', 'b'] :=
  have h := IMB_metadata_set_get_round_trip (IDPropertyGroup.mk ['m'] [⟨['k'], IDP_INT, []⟩])
    ['k'] ['a', 'b', 'c'] ['z'] 3 (by decide) (by decide) (by decide)
  ⟨by decide, by decide, by decide, h.1, h.2.1⟩

/-- In a well-formed group the search by name finds every member under its name. -/
theorem find_of_mem (key : CString) (l : List IDProperty) (p : IDProperty)
    (hl : (l.map (fun p => p.name)).Nodup) (hm : p ∈ l) (hk : p.name = key) :
    l.find? (fun q => decide (q.name = key)) = some p := by
  induction l with
  | nil => cases hm
  | cons q qs ih =>
    rw [List.map_cons, List.nodup_cons] at hl
    rcases List.mem_cons.mp hm with rfl | hm
    · simp [hk]
    · have hq : q.name ≠ key := by
        intro hqk
        exact hl.1 (List.mem_map.mpr ⟨p, hm, by rw [hk, hqk]⟩)
      rw [List.find?_cons_of_neg _ (by simpa using hq)]
      exact ih hl.2 hm

/-- C5: `IMB_metadata_get_field` returns true if and only if `metadata` is not NULL and the
(well-formed) group holds a property named `key` whose type is `IDP_STRING`; whenever it
returns false the caller's buffer `field` is left unchanged. -/
theorem IMB_metadata_get_field_true_iff (metadata : Option IDPropertyGroup) (key : CString)
    (field : CString) (len : Nat) (hwf : metadata_valid metadata) :
    let out := IMB_metadata_get_field metadata key field len
    (out.1 = true ↔
      ∃ g, metadata = some g ∧ ∃ p ∈ g.group, p.name = key ∧ p.type = IDP_STRING)
    ∧ (out.1 = false → out.2 = field) := by
  intro out
  cases metadata with
  | none => simp [out, IMB_metadata_get_field]
  | some g =>
    have hg : g.WellFormed := hwf
    have hd : (IDP_GetPropertyFromGroup g key).bind g.deref
        = g.group.find? (fun p => decide (p.name = key)) := find_name_deref key g.group
    have hout : out = match g.group.find? (fun p => decide (p.name = key)) with
        | some prop =>
          if prop.type = IDP_STRING then (true, BLI_strncpy prop.data len) else (false, field)
        | none => (false, field) := by
      simp only [out, IMB_metadata_get_field, hd]
    rw [hout]
    cases hf : g.group.find? (fun p => decide (p.name = key)) with
    | none =>
      have hnone := List.find?_eq_none.mp hf
      simp only [Bool.false_eq_true, Option.some.injEq, exists_eq_left', false_iff, not_exists,
        not_and, forall_true_left, and_true]
      intro p hp hk
      have := hnone p hp
      simp [hk] at this
    | some q =>
      have hqm := List.mem_of_find?_eq_some hf
      have hqk : q.name = key := by simpa using List.find?_some hf
      by_cases hty : q.type = IDP_STRING
      · simp only [hty, if_true, Option.some.injEq, exists_eq_left', true_iff,
          Bool.true_eq_false, false_implies, and_true]
        exact ⟨q, hqm, hqk, hty⟩
      · simp only [hty, if_false, Bool.false_eq_true, Option.some.injEq, exists_eq_left',
          false_iff, not_exists, not_and, forall_true_left, and_true]
        intro p hp hk hpt
        have := find_of_mem key g.group p hg hp hk
        rw [hf] at this
        cases this
        exact hty hpt

/-- A worked example of C5: the group holds `k` as a string, and the field is read. -/
theorem IMB_metadata_get_field_true_iff_witness :
    metadata_valid (some (IDPropertyGroup.mk ['m'] [⟨['k'], IDP_STRING, ['v']⟩]))
    ∧ (IMB_metadata_get_field (some (IDPropertyGroup.mk ['m'] [⟨['k'], IDP_STRING, ['v']⟩]))
        ['k'] [] 8).1 = true :=
  ⟨by decide, (IMB_metadata_get_field_true_iff
      (some (IDPropertyGroup.mk ['m'] [⟨['k'], IDP_STRING, ['v']⟩])) ['k'] [] 8
      (by decide)).1.mpr ⟨_, rfl, ⟨['k'], IDP_STRING, ['v']⟩, by simp, rfl, rfl⟩⟩

/-! ### Multi-functions of nodes -/

/-- C6: `NodeMultiFunctions::try_get` is a direct lookup: it returns the multi-function
that the map stores under the `bNode` of the node when there is one, and `nullptr` when the
`bNode` is not a key of the map; the object is the same after the call. -/
theorem NodeMultiFunctions_try_get_lookup (self : NodeMultiFunctions) (node : DNode) :
    let out := self.try_get node
    (∀ fn, (node.node_ref.bnode, fn) ∈ self.map_.slots → out.2 = fn)
    ∧ (node.node_ref.bnode ∉ self.map_.slots.map Prod.fst → out.2 = none)
    ∧ out.1 = self := by
  intro out
  refine ⟨?_, ?_, rfl⟩
  · intro fn hm
    simp only [out, NodeMultiFunctions.try_get, Map.lookup_default]
    cases hf : self.map_.slots.find? (fun kv => decide (kv.1 = node.node_ref.bnode)) with
    | none =>
      have := List.find?_eq_none.mp hf _ hm
      simp at this
    | some kv =>
      have h1 : kv.1 = node.node_ref.bnode := by simpa using List.find?_some hf
      have h2 := List.mem_of_find?_eq_some hf
      have := List.inj_on_of_nodup_map self.map_.keys_nodup h2 hm h1
      rw [this]
  · intro hc
    simp only [out, NodeMultiFunctions.try_get, Map.lookup_default]
    cases hf : self.map_.slots.find? (fun kv => decide (kv.1 = node.node_ref.bnode)) with
    | none => rfl
    | some kv =>
      have h1 : kv.1 = node.node_ref.bnode := by simpa using List.find?_some hf
      have h2 := List.mem_of_find?_eq_some hf
      exact absurd (List.mem_map.mpr ⟨kv, h2, h1⟩) hc

/-! ### Window, ray and vector functions -/

/-- The products `2^127 * 2` and `-2^127 * 2` are beyond the range of binary32 and round to
the infinities. -/
theorem F32.round_two_pow_128 :
    F32.round (2 ^ 127 * 2) = F32.inf false ∧ F32.round (-2 ^ 127 * 2) = F32.inf true := by
  have h2 : ((2 : ℚ) ^ 127 * 2) = ((2 : ℕ) : ℚ) ^ (128 : ℤ) := by norm_num
  have hlog : Int.log 2 ((2 : ℚ) ^ 127 * 2) = 128 := by
    rw [h2]
    exact Int.log_zpow (by norm_num) 128
  have hb : |((2 : ℚ) ^ 127 * 2)| = 2 ^ 127 * 2 := abs_of_pos (by positivity)
  have ha : |(-(2 : ℚ) ^ 127 * 2)| = 2 ^ 127 * 2 := by
    rw [neg_mul, abs_neg]
    exact hb
  constructor
  · unfold F32.round
    simp only [hb, hlog]
    norm_num [F32.round_half_even]
  · unfold F32.round
    simp only [ha, hlog]
    norm_num [F32.round_half_even]

/-- When the raw projection factor is NaN, `ED_view3d_calc_zfac` returns NaN. -/
theorem ED_view3d_calc_zfac_of_nan (rv3d : RegionView3D) (co : V3f) (r_flip : Option Bool)
    (h : Binary32.mul_project_m4_v3_zfac rv3d.persmat co = F32.nan) :
    (ED_view3d_calc_zfac rv3d co r_flip).1 = F32.nan := by
  have hneg : ∀ a : F32, -a = F32.neg a := fun _ => rfl
  have hz : (ED_view3d_calc_zfac rv3d co r_flip).1
      = (fun z : F32 =>
          if F32.lt (if (F32.lt z FLT_1e_6 && F32.gt z (-FLT_1e_6)) = true
              then F32.fin 1 else z) (F32.fin 0) = true
          then -(if (F32.lt z FLT_1e_6 && F32.gt z (-FLT_1e_6)) = true then F32.fin 1 else z)
          else (if (F32.lt z FLT_1e_6 && F32.gt z (-FLT_1e_6)) = true then F32.fin 1 else z))
        (Binary32.mul_project_m4_v3_zfac rv3d.persmat co) := rfl
  rw [hz, h]
  simp [F32.lt, F32.gt, hneg, F32.neg]

/-- C7, at two inputs where it fails. With a coordinate that is not a number the raw factor
is NaN; and with the finite entries `2^127` and `-2^127` in `persmat` and the finite point
`(2, 2, 0)` the two products overflow to opposite infinities, whose sum is NaN. In both
cases `ED_view3d_calc_zfac` returns NaN, and NaN is not strictly positive. -/
theorem ED_view3d_calc_zfac_nan :
    (ED_view3d_calc_zfac (RegionView3D.unit true) ⟨F32.nan, F32.fin 0, F32.fin 0⟩ none).1
      = F32.nan
    ∧ ¬(F32.gt (ED_view3d_calc_zfac (RegionView3D.unit true)
          ⟨F32.nan, F32.fin 0, F32.fin 0⟩ none).1 (F32.fin 0) = true)
    ∧ (ED_view3d_calc_zfac (RegionView3D.huge true) ⟨F32.fin 2, F32.fin 2, F32.fin 0⟩ none).1
      = F32.nan
    ∧ ¬(F32.gt (ED_view3d_calc_zfac (RegionView3D.huge true)
          ⟨F32.fin 2, F32.fin 2, F32.fin 0⟩ none).1 (F32.fin 0) = true) := by
  have hmul : ∀ a b : F32, a * b = F32.mul a b := fun _ _ => rfl
  have hadd : ∀ a b : F32, a + b = F32.add a b := fun _ _ => rfl
  have hz : Binary32.mul_project_m4_v3_zfac (RegionView3D.unit true).persmat
      ⟨F32.nan, F32.fin 0, F32.fin 0⟩ = F32.nan := by
    simp [Binary32.mul_project_m4_v3_zfac, RegionView3D.unit, M4f.unit, hmul, hadd, F32.mul,
      F32.add]
  have e1 : F32.mul (F32.fin (2 ^ 127)) (F32.fin 2) = F32.inf false := by
    rw [F32.mul]
    exact F32.round_two_pow_128.1
  have e2 : F32.mul (F32.fin (-2 ^ 127)) (F32.fin 2) = F32.inf true := by
    rw [F32.mul]
    exact F32.round_two_pow_128.2
  have e3 : Binary32.mul_project_m4_v3_zfac (RegionView3D.huge true).persmat
      ⟨F32.fin 2, F32.fin 2, F32.fin 0⟩
      = F32.add (F32.add (F32.add (F32.mul (F32.fin (2 ^ 127)) (F32.fin 2))
          (F32.mul (F32.fin (-2 ^ 127)) (F32.fin 2))) (F32.mul (F32.fin 0) (F32.fin 0)))
          (F32.fin 1) := rfl
  have hz2 : Binary32.mul_project_m4_v3_zfac (RegionView3D.huge true).persmat
      ⟨F32.fin 2, F32.fin 2, F32.fin 0⟩ = F32.nan := by
    rw [e3, e1, e2]
    simp [F32.add]
  have hA := ED_view3d_calc_zfac_of_nan (RegionView3D.unit true)
    ⟨F32.nan, F32.fin 0, F32.fin 0⟩ none hz
  have hB := ED_view3d_calc_zfac_of_nan (RegionView3D.huge true)
    ⟨F32.fin 2, F32.fin 2, F32.fin 0⟩ none hz2
  have hgt : ¬(F32.gt F32.nan (F32.fin 0) = true) := by simp [F32.gt, F32.lt]
  refine ⟨hA, ?_, hB, ?_⟩
  · rw [hA]
    exact hgt
  · rw [hB]
    exact hgt

/-- C7, as amended: `ED_view3d_calc_zfac` never returns zero or a negative value. With `z`
the raw projection factor `mul_project_m4_v3_zfac(persmat, co)` and `c = 8796093 / 2^43` the
value of the literal `1.e-6f`: the result is `1` when `z` is finite with `-c < z < c`, and
`|z|` otherwise (positive infinity for an infinity, NaN for NaN); so it is strictly positive
whenever `z` is a number, and NaN when `z` is NaN; and when `r_flip` is supplied it is set to
true exactly when the raw `z` is negative. -/
theorem ED_view3d_calc_zfac_positive (rv3d : RegionView3D) (co : V3f)
    (r_flip : Option Bool) :
    let z := Binary32.mul_project_m4_v3_zfac rv3d.persmat co
    let out := ED_view3d_calc_zfac rv3d co r_flip
    out.1 = (match z with
      | F32.nan => F32.nan
      | F32.inf _ => F32.inf false
      | F32.fin q =>
        if -(8796093 / 8796093022208) < q ∧ q < 8796093 / 8796093022208 then F32.fin 1
        else F32.fin |q|)
    ∧ out.1 = (if (F32.gt z (-FLT_1e_6) && F32.lt z FLT_1e_6) = true then F32.fin 1
        else F32.fabsf z)
    ∧ F32.le out.1 (F32.fin 0) = false
    ∧ (∀ q, out.1 = F32.fin q → 0 < q)
    ∧ (z ≠ F32.nan → F32.gt out.1 (F32.fin 0) = true)
    ∧ (z = F32.nan → out.1 = F32.nan)
    ∧ out.2 = r_flip.map (fun _ => F32.lt z (F32.fin 0)) := by
  intro z out
  have hz : out = ((if F32.lt (if (F32.lt z FLT_1e_6 && F32.gt z (-FLT_1e_6)) = true
          then F32.fin 1 else z) (F32.fin 0) = true
        then -(if (F32.lt z FLT_1e_6 && F32.gt z (-FLT_1e_6)) = true then F32.fin 1 else z)
        else (if (F32.lt z FLT_1e_6 && F32.gt z (-FLT_1e_6)) = true then F32.fin 1 else z)),
      r_flip.map (fun _ => F32.lt z (F32.fin 0))) := rfl
  rw [hz]
  have hneg : -FLT_1e_6 = F32.fin (-(8796093 / 8796093022208)) := rfl
  have hnegdef : ∀ x : F32, -x = F32.neg x := fun _ => rfl
  clear_value z
  cases z with
  | nan => simp [F32.lt, F32.gt, F32.le, F32.fabsf, hnegdef, F32.neg]
  | inf s => cases s <;> simp [F32.lt, F32.gt, F32.le, F32.fabsf, hnegdef, F32.neg, FLT_1e_6]
  | fin q =>
    by_cases h1 : -(8796093 / 8796093022208) < q ∧ q < 8796093 / 8796093022208
    · have h2 : (F32.lt (F32.fin q) FLT_1e_6 && F32.gt (F32.fin q) (-FLT_1e_6)) = true := by
        simp [F32.lt, F32.gt, FLT_1e_6, hnegdef, F32.neg, h1.1, h1.2]
      have h3 : (F32.gt (F32.fin q) (-FLT_1e_6) && F32.lt (F32.fin q) FLT_1e_6) = true := by
        simp [F32.lt, F32.gt, FLT_1e_6, hnegdef, F32.neg, h1.1, h1.2]
      simp only [h2, h3, if_true, if_pos h1]
      norm_num [F32.lt, F32.gt, F32.le]
      intro h
      cases h
    · have h2 : ¬((F32.lt (F32.fin q) FLT_1e_6 && F32.gt (F32.fin q) (-FLT_1e_6)) = true) := by
        simp only [F32.lt, F32.gt, FLT_1e_6, hnegdef, F32.neg, Bool.and_eq_true,
          decide_eq_true_eq]
        exact fun h => h1 ⟨h.2, h.1⟩
      have h3 : ¬((F32.gt (F32.fin q) (-FLT_1e_6) && F32.lt (F32.fin q) FLT_1e_6) = true) := by
        simp only [F32.lt, F32.gt, FLT_1e_6, hnegdef, F32.neg, Bool.and_eq_true,
          decide_eq_true_eq]
        exact h1
      have hq0 : q ≠ 0 := by
        rintro rfl
        exact h1 (by norm_num)
      simp only [h2, h3, if_false, if_neg h1]
      by_cases h4 : q < 0
      · have h5 : 0 < -q := by linarith
        simp [F32.lt, F32.gt, F32.le, F32.fabsf, hnegdef, F32.neg, h4, abs_of_neg h4, h5]
      · have h5 : 0 < q := lt_of_le_of_ne (not_lt.mp h4) (Ne.symm hq0)
        simp [F32.lt, F32.gt, F32.le, F32.fabsf, h4, abs_of_pos h5, h5]

/-- C10: in orthographic view all window coordinates yield the same vector: for a region
whose view has `is_persp` false, `ED_view3d_win_to_vector` returns the same vector for any two
window positions, and that vector depends on nothing but `viewinv[2]`. -/
theorem ED_view3d_win_to_vector_ortho (region : ARegion) (mval1 mval2 : V2)
    (h : region.regiondata.is_persp = false) :
    ED_view3d_win_to_vector region mval1 = ED_view3d_win_to_vector region mval2
    ∧ ∀ (region2 : ARegion) (mval : V2), region2.regiondata.is_persp = false →
        region2.regiondata.viewinv.m2.xyz = region.regiondata.viewinv.m2.xyz →
        ED_view3d_win_to_vector region2 mval = ED_view3d_win_to_vector region mval1 := by
  constructor
  · simp [ED_view3d_win_to_vector, h]
  · intro region2 mval h2 hv
    simp [ED_view3d_win_to_vector, h, h2, hv]

/-- A worked example of C10: two window positions on an orthographic unit view. -/
theorem ED_view3d_win_to_vector_ortho_witness :
    (ARegion.unit false).regiondata.is_persp = false
    ∧ ED_view3d_win_to_vector (ARegion.unit false) ⟨0, 0⟩
        = ED_view3d_win_to_vector (ARegion.unit false) ⟨10, 20⟩ :=
  ⟨rfl, (ED_view3d_win_to_vector_ortho (ARegion.unit false) ⟨0, 0⟩ ⟨10, 20⟩ rfl).1⟩

/-- Negating a vector negates its normalization. -/
theorem normalize_v3_negate (v : V3) :
    normalize_v3 (negate_v3_v3 v) = negate_v3_v3 (normalize_v3 v) := by
  have hd : dot_v3v3 (negate_v3_v3 v) (negate_v3_v3 v) = dot_v3v3 v v := by
    simp only [dot_v3v3, negate_v3_v3]
    ring
  unfold normalize_v3
  simp only [hd]
  split
  · simp [negate_v3_v3]
  · simp [negate_v3_v3]

/-- What `ED_view3d_global_to_vector` computes in perspective view: when `viewmat` is affine
and `viewinv` is its inverse, the result is the normalized vector from `coord` to the
viewpoint `viewinv[3]`. -/
theorem ED_view3d_global_to_vector_persp (rv3d : RegionView3D) (coord : V3)
    (hp : rv3d.is_persp = true)
    (haff : rv3d.viewmat.m0.w = 0 ∧ rv3d.viewmat.m1.w = 0 ∧ rv3d.viewmat.m2.w = 0
      ∧ rv3d.viewmat.m3.w = 1)
    (hinv : ∀ v : V4, mul_m4_v4 rv3d.viewinv (mul_m4_v4 rv3d.viewmat v) = v) :
    ED_view3d_global_to_vector rv3d coord
      = normalize_v3 (sub_v3_v3v3 rv3d.viewinv.m3.xyz coord) := by
  obtain ⟨a0, a1, a2, a3⟩ := haff
  have h1 := hinv ⟨coord.x, coord.y, coord.z, 1⟩
  have h0 := hinv ⟨0, 0, 0, 1⟩
  simp only [mul_m4_v4, a0, a1, a2, a3, V4.mk.injEq] at h1 h0
  obtain ⟨h1x, h1y, h1z, -⟩ := h1
  obtain ⟨h0x, h0y, h0z, -⟩ := h0
  have hv : sub_v3_v3v3 (V4.mk coord.x coord.y coord.z 1).xyz
      (mul_m4_v4 rv3d.viewinv (mul_v3_fl (mul_m4_v4 rv3d.viewmat
        ⟨coord.x, coord.y, coord.z, 1⟩) 2)).xyz
      = sub_v3_v3v3 rv3d.viewinv.m3.xyz coord := by
    simp only [sub_v3_v3v3, V4.xyz, mul_m4_v4, mul_v3_fl, a0, a1, a2, a3, V3.mk.injEq]
    refine ⟨?_, ?_, ?_⟩
    · linear_combination (-2) * h1x
    · linear_combination (-2) * h1y
    · linear_combination (-2) * h1z
  simp only [ED_view3d_global_to_vector, hp, if_true]
  rw [hv]

/-- What the two direction functions compute in orthographic view: the vector of
`ED_view3d_global_to_vector` is the opposite of the vector of `ED_view3d_win_to_vector`. -/
theorem ED_view3d_global_to_vector_ortho (region : ARegion) (coord : V3) (mval : V2)
    (h : region.regiondata.is_persp = false) :
    ED_view3d_win_to_vector region mval
      = negate_v3_v3 (ED_view3d_global_to_vector region.regiondata coord) := by
  simp only [ED_view3d_win_to_vector, ED_view3d_global_to_vector, h]
  exact normalize_v3_negate _

/-- C8, evaluated at the failing input: in the perspective view from `(0, 0, 5)` and for
`coord = (0, 0, 0)`, `ED_view3d_global_to_vector` returns `(0, 0, 1)`, the direction from
`coord` to the viewpoint, where `normalize(coord - viewinv[3])` is `(0, 0, -1)`. -/
theorem ED_view3d_global_to_vector_persp_eval :
    ED_view3d_global_to_vector (RegionView3D.from_z5 true) ⟨0, 0, 0⟩ = ⟨0, 0, 1⟩
    ∧ normalize_v3 (sub_v3_v3v3 ⟨0, 0, 0⟩ (RegionView3D.from_z5 true).viewinv.m3.xyz)
        = ⟨0, 0, -1⟩ := by
  have h25 : Nat.sqrt (Int.toNat 25) = 5 := Nat.sqrt_eq 5
  constructor <;>
    norm_num [ED_view3d_global_to_vector, RegionView3D.from_z5, RegionView3D.unit, M4.unit,
      mul_m4_v4, mul_v3_fl, sub_v3_v3v3, V4.xyz, normalize_v3, dot_v3v3, sqrtf, h25]

/-- C9, evaluated at the failing input: in the orthographic view from `(0, 0, 5)`, where
`viewinv[2]` is `(0, 0, 1)`, `ED_view3d_global_to_vector` returns `(0, 0, 1)`, where
`ED_view3d_win_to_vector`, and with it `ED_view3d_win_to_ray`, returns `(0, 0, -1)`. -/
theorem ED_view3d_global_to_vector_ortho_eval :
    ED_view3d_global_to_vector (RegionView3D.from_z5 false) ⟨0, 0, 0⟩ = ⟨0, 0, 1⟩
    ∧ ED_view3d_win_to_vector ⟨100, 100, RegionView3D.from_z5 false⟩ ⟨50, 50⟩ = ⟨0, 0, -1⟩
    ∧ (ED_view3d_win_to_ray ViewEnv.std ⟨100, 100, RegionView3D.from_z5 false⟩ ⟨50, 50⟩).2
        = ⟨0, 0, -1⟩ := by
  refine ⟨?_, ?_, ?_⟩ <;>
    norm_num [ED_view3d_global_to_vector, ED_view3d_win_to_vector, ED_view3d_win_to_ray,
      RegionView3D.from_z5, RegionView3D.unit, M4.unit, negate_v3_v3, V4.xyz, normalize_v3,
      dot_v3v3, sqrtf]

/-! ### Image metadata: creation -/

/-- C14: `IMB_metadata_ensure` creates the store only when it is absent and is idempotent:
after the call `*metadata` is not NULL; a group that was there before is left as it was; a
NULL pointer is replaced by a new empty group called `metadata`; and calling it twice gives
the state that calling it once gives. -/
theorem IMB_metadata_ensure_idempotent (metadata : Option IDPropertyGroup) :
    IMB_metadata_ensure metadata ≠ none
    ∧ (∀ group, metadata = some group → IMB_metadata_ensure metadata = some group)
    ∧ (metadata = none →
        IMB_metadata_ensure metadata = some ⟨['m', 'e', 't', 'a', 'd', 'a', 't', 'a'], []⟩)
    ∧ IMB_metadata_ensure (IMB_metadata_ensure metadata) = IMB_metadata_ensure metadata := by
  cases metadata with
  | none => exact ⟨by simp [IMB_metadata_ensure], by simp, fun _ => rfl, rfl⟩
  | some g => exact ⟨by simp [IMB_metadata_ensure], fun _ h => h ▸ rfl, by simp, rfl⟩

/-! ### Compositor nodes -/

/-- C13: the node converters are 1:1 mappings. For a Pixelate node with input 0 and output 0
and for a Value node with output 0, `convert_to_operations` adds exactly one operation to the
converter. Pixelate maps its input 0 to input 0 and its output 0 to output 0 of that
operation, whose data type is that of the linked output, or of the input when it is not
linked. Value maps its output 0 to output 0 of that operation and maps no input, and the
value of the operation is the editor float value of the output socket. Nothing else in the
converter changes. -/
theorem convert_to_operations_one_to_one (input_socket : NodeInput) (inputs : List NodeInput)
    (output_socket : NodeOutput) (outputs : List NodeOutput) (value_inputs : List NodeInput)
    (converter : NodeConverter) :
    let pixelate := NodeOperation.PixelateOperation
      (match input_socket.link with
        | some link => link.data_type
        | none => input_socket.data_type)
    let set_value := NodeOperation.SetValueOperation output_socket.editor_value_float
    PixelateNode.convert_to_operations ⟨input_socket :: inputs, output_socket :: outputs⟩
        converter
      = some
        { operations := converter.operations ++ [pixelate]
          input_map := converter.input_map ++ [(input_socket, ⟨pixelate, 0⟩)]
          output_map := converter.output_map ++ [(output_socket, ⟨pixelate, 0⟩)] }
    ∧ ValueNode.convert_to_operations ⟨value_inputs, output_socket :: outputs⟩ converter
      = some
        { operations := converter.operations ++ [set_value]
          input_map := converter.input_map
          output_map := converter.output_map ++ [(output_socket, ⟨set_value, 0⟩)] } := by
  constructor
  · cases hl : input_socket.link <;>
      simp [PixelateNode.convert_to_operations, Node.get_input_socket, Node.get_output_socket,
        NodeInput.get_data_type, NodeInput.is_linked, NodeInput.get_link,
        NodeOutput.get_data_type, NodeConverter.add_operation, NodeConverter.map_input_socket,
        NodeConverter.map_output_socket, NodeOperation.get_input_socket,
        NodeOperation.get_output_socket, hl]
  · simp [ValueNode.convert_to_operations, Node.get_output_socket,
      NodeOutput.get_editor_value_float, NodeOperation.set_value,
      NodeConverter.add_operation, NodeConverter.map_output_socket,
      NodeOperation.get_output_socket]

/-! ### Clipped rays and segments -/

/-- C12: `ED_view3d_win_to_ray_clipped_ex` and `ED_view3d_win_to_segment_clipped` return
false only if the ray is totally clipped. With `(ray_start, ray_end)` the segment that
`view3d_win_to_ray_segment` computes: each returns true whenever `do_clip_planes` is false
and whenever the view does not have `RV3D_CLIPPING` set; each returns false exactly when
`do_clip_planes` is true, `RV3D_CLIPPING` is set and `clip_segment_v3_plane_n` fails on the
segment and the six clip planes of the view. `ED_view3d_clip_segment` returns true and
leaves `ray_start` and `ray_end` unchanged when `RV3D_CLIPPING` is not set. -/
theorem ED_view3d_win_to_ray_clipped_false_iff (E : ViewEnv) (depsgraph : Depsgraph)
    (region : ARegion) (v3d : View3D) (mval : V2) (r_ray_co r_ray_normal : Option V3)
    (r_ray_start r_ray_end ray_end : V3) (do_clip_planes : Bool) :
    let rv3d := region.regiondata
    let segment := view3d_win_to_ray_segment E depsgraph region v3d mval none none
      (some r_ray_start) (some r_ray_end)
    let seg_start := segment.2.2.1.getD r_ray_start
    let seg_end := segment.2.2.2.getD r_ray_end
    let totally_clipped : Prop := do_clip_planes = true
      ∧ test_bit rv3d.rflag E.RV3D_CLIPPING = true
      ∧ (E.clip_segment_v3_plane_n seg_start seg_end rv3d.clip 6).1 = false
    let ray := ED_view3d_win_to_ray_clipped_ex E depsgraph region v3d mval r_ray_co
      r_ray_normal r_ray_start do_clip_planes ray_end
    let seg := ED_view3d_win_to_segment_clipped E depsgraph region v3d mval r_ray_start
      r_ray_end do_clip_planes
    (do_clip_planes = false → ray.1 = true ∧ seg.1 = true)
    ∧ (test_bit rv3d.rflag E.RV3D_CLIPPING = false → ray.1 = true ∧ seg.1 = true)
    ∧ (ray.1 = false ↔ totally_clipped)
    ∧ (seg.1 = false ↔ totally_clipped)
    ∧ (∀ (rv : RegionView3D) (ray_start ray_end : V3),
        test_bit rv.rflag E.RV3D_CLIPPING = false →
        ED_view3d_clip_segment E rv ray_start ray_end = (true, ray_start, ray_end)) := by
  intro rv3d segment seg_start seg_end totally_clipped ray seg
  have hclip : ∀ (rv : RegionView3D) (s e : V3),
      (ED_view3d_clip_segment E rv s e).1
        = !(test_bit rv.rflag E.RV3D_CLIPPING
            && !(E.clip_segment_v3_plane_n s e rv.clip 6).1) := by
    intro rv s e
    unfold ED_view3d_clip_segment
    cases test_bit rv.rflag E.RV3D_CLIPPING <;>
      cases h : (E.clip_segment_v3_plane_n s e rv.clip 6).1 <;> simp [h]
  have hray : ray.1 = !(do_clip_planes && (test_bit rv3d.rflag E.RV3D_CLIPPING
      && !(E.clip_segment_v3_plane_n seg_start seg_end rv3d.clip 6).1)) := by
    cases do_clip_planes
    · rfl
    · exact hclip rv3d seg_start seg_end
  have hseg : seg.1 = !(do_clip_planes && (test_bit rv3d.rflag E.RV3D_CLIPPING
      && !(E.clip_segment_v3_plane_n seg_start seg_end rv3d.clip 6).1)) := by
    cases do_clip_planes
    · rfl
    · exact hclip rv3d seg_start seg_end
  have hunch : ∀ (rv : RegionView3D) (s e : V3),
      test_bit rv.rflag E.RV3D_CLIPPING = false →
      ED_view3d_clip_segment E rv s e = (true, s, e) := by
    intro rv s e h
    simp [ED_view3d_clip_segment, h]
  refine ⟨?_, ?_, ?_, ?_, hunch⟩
  · intro h
    rw [hray, hseg, h]
    exact ⟨rfl, rfl⟩
  · intro h
    rw [hray, hseg, h]
    simp
  · rw [hray]
    simp only [totally_clipped]
    cases do_clip_planes <;> cases test_bit rv3d.rflag E.RV3D_CLIPPING <;>
      cases (E.clip_segment_v3_plane_n seg_start seg_end rv3d.clip 6).1 <;> simp
  · rw [hseg]
    simp only [totally_clipped]
    cases do_clip_planes <;> cases test_bit rv3d.rflag E.RV3D_CLIPPING <;>
      cases (E.clip_segment_v3_plane_n seg_start seg_end rv3d.clip 6).1 <;> simp

/-! ### Window position to 3D location -/

end Blender
